import Mathlib

/-!
Verification of the JoyDb mini-RDBMS against its specification.

This file shallowly embeds the parts of the Go source that the claims
touch: the lexer token stream, the recursive-descent SQL parser
(`internal/parser`), the AST with its String printers
(`internal/parser/ast`), the statement-level executor
(`internal/executor`), the storage registry and JSON storage engine
(`internal/storage`), and the engine glue (`internal/engine`).

Conventions of the embedding:
* Go errors become `Except String` (or a structured error type where a
  claim distinguishes error kinds); Go in-place mutation becomes explicit
  state passing.
* Go `float64` literal values are represented as exact rationals parsed
  from the decimal literal text.  Every float value handled by the
  program originates from a decimal literal, and AST equality also
  compares the stored literal text, so this representation induces the
  same equality on parser output as Go structural equality.
* Token line/column positions are not modelled; no claim refers to them.
* Functions of the repository whose implementation file is not part of
  the provided source tree (the lexer body, the domain `Table` CRUD
  methods, the `query/operations` join and projection helpers, the
  predicate builder, the coercion utilities) are modelled from the
  specification; each such definition carries a doc comment starting
  with `Modelled from the spec:`.
-/

namespace JoyDb

/-! ## Lexer token model -/

/-- Token kinds of the lexer (`internal/parser/lexer`).  The keyword set
follows the spec §4.1 and the lexer package documentation; `NOT_EQUALS`
covers both spellings `!=` and `<>` (the token literal keeps the
distinction). -/
inductive TokenType where
  | SELECT | FROM | WHERE | INSERT | INTO | VALUES | UPDATE | SET | DELETE
  | AND | OR | TRUE | FALSE | JOIN | INNER | LEFT | RIGHT | FULL | OUTER | ON
  | DATE | TIME | EMAIL | CREATE | DROP | ALTER | USE | DATABASE | RENAME | TO
  | IDENTIFIER | STRING | NUMBER
  | ASTERISK | COMMA | PAREN_OPEN | PAREN_CLOSE | EQUALS
  | LESS_THAN | GREATER_THAN | LESS_EQUAL | GREATER_EQUAL | NOT_EQUALS
  | DOT | SEMICOLON | EOF | ILLEGAL
  deriving DecidableEq, Repr

/-- A lexer token: kind plus the literal text (positions are not
modelled). -/
structure Token where
  type : TokenType
  literal : String
  deriving DecidableEq, Repr

/-- The single-quote character, written by code point to keep quote
characters out of string literals of this file. -/
def sq : Char := Char.ofNat 39

/-- ASCII upper-case test on a character. -/
def isUpperAscii (c : Char) : Bool := 65 ≤ c.toNat && c.toNat ≤ 90

/-- ASCII lower-case test on a character. -/
def isLowerAscii (c : Char) : Bool := 97 ≤ c.toNat && c.toNat ≤ 122

/-- Model of Go `strings.ToLower` on a character (ASCII range; SQL
identifiers are ASCII). -/
def asciiToLower (c : Char) : Char :=
  if isUpperAscii c then Char.ofNat (c.toNat + 32) else c

/-- Model of Go `strings.ToUpper` on a character (ASCII range). -/
def asciiToUpper (c : Char) : Char :=
  if isLowerAscii c then Char.ofNat (c.toNat - 32) else c

/-- Model of Go `strings.ToLower` (ASCII range). -/
def strToLower (s : String) : String := String.mk (s.data.map asciiToLower)

/-- Model of Go `strings.ToUpper` (ASCII range). -/
def strToUpper (s : String) : String := String.mk (s.data.map asciiToUpper)

/-- Keyword table of the lexer, as in spec §4.1. -/
def keywords : List (String × TokenType) :=
  [("SELECT", .SELECT), ("FROM", .FROM), ("WHERE", .WHERE), ("INSERT", .INSERT),
   ("INTO", .INTO), ("VALUES", .VALUES), ("UPDATE", .UPDATE), ("SET", .SET),
   ("DELETE", .DELETE), ("AND", .AND), ("OR", .OR), ("TRUE", .TRUE),
   ("FALSE", .FALSE), ("JOIN", .JOIN), ("INNER", .INNER), ("LEFT", .LEFT),
   ("RIGHT", .RIGHT), ("FULL", .FULL), ("OUTER", .OUTER), ("ON", .ON),
   ("DATE", .DATE), ("TIME", .TIME), ("EMAIL", .EMAIL), ("CREATE", .CREATE),
   ("DROP", .DROP), ("ALTER", .ALTER), ("USE", .USE), ("DATABASE", .DATABASE),
   ("RENAME", .RENAME), ("TO", .TO)]

/-- Modelled from the spec: the lexer helper `LookupIdent` (the file
`lexer/lexer.go` is not part of the provided sources; the lexer package
README shows this exact shape).  Keywords match case-insensitively. -/
def lookupIdent (s : String) : TokenType :=
  match keywords.lookup (strToUpper s) with
  | some t => t
  | none => .IDENTIFIER

/-- ASCII letter or underscore (start of an identifier). -/
def isIdentStart (c : Char) : Bool :=
  isUpperAscii c || isLowerAscii c || c = Char.ofNat 95

/-- ASCII digit. -/
def isDigitCh (c : Char) : Bool := 48 ≤ c.toNat && c.toNat ≤ 57

/-- Identifier continuation character: `[A-Za-z0-9_]`. -/
def isIdentCh (c : Char) : Bool := isIdentStart c || isDigitCh c

/-- Whitespace skipped by the lexer: space, tab, CR, LF. -/
def isWhitespace (c : Char) : Bool :=
  c = Char.ofNat 32 || c = Char.ofNat 9 || c = Char.ofNat 13 || c = Char.ofNat 10

/-- Modelled from the spec: `readIdentifier` of the lexer — consume the
maximal run of identifier characters. -/
def readIdent (cs : List Char) : String × List Char :=
  (String.mk (cs.takeWhile isIdentCh), cs.dropWhile isIdentCh)

/-- Modelled from the spec: `readNumber` of the lexer — digits, then a
fractional part only when a digit follows the dot (README excerpt of
`lexer.go`). -/
def readNumber (cs : List Char) : String × List Char :=
  let intPart := cs.takeWhile isDigitCh
  let rest := cs.dropWhile isDigitCh
  match rest with
  | c :: c2 :: rest2 =>
    if c = Char.ofNat 46 && isDigitCh c2 then
      let fracPart := (c2 :: rest2).takeWhile isDigitCh
      (String.mk (intPart ++ [c] ++ fracPart), (c2 :: rest2).dropWhile isDigitCh)
    else (String.mk intPart, rest)
  | _ => (String.mk intPart, rest)

/-- Modelled from the spec: `readString` of the lexer — after an opening
quote, consume up to the closing quote; `none` when the input ends first
(unterminated string, an ILLEGAL token). -/
def readStringLit (cs : List Char) : Option (String × List Char) :=
  let content := cs.takeWhile (fun c => c ≠ sq)
  match cs.dropWhile (fun c => c ≠ sq) with
  | _ :: rest => some (String.mk content, rest)
  | [] => none

/-- Modelled from the spec: the tokenizer loop (`Tokenize` plus
`NextToken` of `lexer/lexer.go`, whose body is not in the provided
sources; spec §4.1).  Fuel-based recursion; each step consumes at least
one character, so `length + 1` fuel always suffices. -/
def tokenizeAux : Nat → List Char → Except String (List Token)
  | 0, _ => .error "lexer fuel exhausted"
  | _, [] => .ok []
  | fuel + 1, c :: cs =>
    if isWhitespace c then tokenizeAux fuel cs
    else if isIdentStart c then
      let (w, rest) := readIdent (c :: cs)
      (tokenizeAux fuel rest).map (fun ts => ⟨lookupIdent w, w⟩ :: ts)
    else if isDigitCh c then
      let (w, rest) := readNumber (c :: cs)
      (tokenizeAux fuel rest).map (fun ts => ⟨.NUMBER, w⟩ :: ts)
    else if c = sq then
      match readStringLit cs with
      | some (w, rest) => (tokenizeAux fuel rest).map (fun ts => ⟨.STRING, w⟩ :: ts)
      | none => .error "illegal token: unterminated string"
    else if c = Char.ofNat 42 then
      (tokenizeAux fuel cs).map (fun ts => ⟨.ASTERISK, "*"⟩ :: ts)
    else if c = Char.ofNat 44 then
      (tokenizeAux fuel cs).map (fun ts => ⟨.COMMA, ","⟩ :: ts)
    else if c = Char.ofNat 40 then
      (tokenizeAux fuel cs).map (fun ts => ⟨.PAREN_OPEN, "("⟩ :: ts)
    else if c = Char.ofNat 41 then
      (tokenizeAux fuel cs).map (fun ts => ⟨.PAREN_CLOSE, ")"⟩ :: ts)
    else if c = Char.ofNat 61 then
      (tokenizeAux fuel cs).map (fun ts => ⟨.EQUALS, "="⟩ :: ts)
    else if c = Char.ofNat 46 then
      (tokenizeAux fuel cs).map (fun ts => ⟨.DOT, "."⟩ :: ts)
    else if c = Char.ofNat 59 then
      (tokenizeAux fuel cs).map (fun ts => ⟨.SEMICOLON, ";"⟩ :: ts)
    else if c = Char.ofNat 60 then
      match cs with
      | c2 :: cs2 =>
        if c2 = Char.ofNat 61 then
          (tokenizeAux fuel cs2).map (fun ts => ⟨.LESS_EQUAL, "<="⟩ :: ts)
        else if c2 = Char.ofNat 62 then
          (tokenizeAux fuel cs2).map (fun ts => ⟨.NOT_EQUALS, "<>"⟩ :: ts)
        else (tokenizeAux fuel cs).map (fun ts => ⟨.LESS_THAN, "<"⟩ :: ts)
      | [] => (tokenizeAux fuel cs).map (fun ts => ⟨.LESS_THAN, "<"⟩ :: ts)
    else if c = Char.ofNat 62 then
      match cs with
      | c2 :: cs2 =>
        if c2 = Char.ofNat 61 then
          (tokenizeAux fuel cs2).map (fun ts => ⟨.GREATER_EQUAL, ">="⟩ :: ts)
        else (tokenizeAux fuel cs).map (fun ts => ⟨.GREATER_THAN, ">"⟩ :: ts)
      | [] => (tokenizeAux fuel cs).map (fun ts => ⟨.GREATER_THAN, ">"⟩ :: ts)
    else if c = Char.ofNat 33 then
      match cs with
      | c2 :: cs2 =>
        if c2 = Char.ofNat 61 then
          (tokenizeAux fuel cs2).map (fun ts => ⟨.NOT_EQUALS, "!="⟩ :: ts)
        else .error "illegal token"
      | [] => .error "illegal token"
    else .error "illegal token"

/-- Modelled from the spec: `lexer.Tokenize` — the whole input as a
token list, or the first lexical error. -/
def tokenize (s : String) : Except String (List Token) :=
  tokenizeAux (s.data.length + 1) s.data

/-! ## AST (`internal/parser/ast`) -/

/-- Kind tag of an AST literal (`ast.LiteralKind`). -/
inductive LiteralKind where
  | string | int | float | bool | date | time | email
  deriving DecidableEq, Repr

/-- Dynamically-typed runtime value (Go `interface\x7b\x7d` in `ast.Literal.Value`
and `data.Row` cells).  Floats are exact rationals parsed from the
decimal literal text (see the file header). -/
inductive Value where
  | vint (i : Int)
  | vfloat (q : ℚ)
  | vstr (s : String)
  | vbool (b : Bool)
  deriving DecidableEq, Repr

/-- `ast.Identifier`: a possibly table-qualified column or table name.
`table` is the empty string when unqualified. -/
structure Identifier where
  tokenLiteralValue : String
  value : String
  table : String := ""
  deriving DecidableEq, Repr

/-- AST expressions (`ast.Expression` implementations: `Identifier`,
`Literal`, `BinaryExpression`, `LogicalExpression`). -/
inductive Expr where
  | ident (id : Identifier)
  | literal (tokenLiteralValue : String) (value : Value) (kind : LiteralKind)
  | binary (left : Expr) (op : String) (right : Expr)
  | logical (left : Expr) (op : String) (right : Expr)
  deriving DecidableEq, Repr

/-- `ast.Identifier.String()`. -/
def Identifier.str (i : Identifier) : String :=
  if i.table ≠ "" then i.table ++ "." ++ i.value else i.value

/-- `String()` of AST expressions: a literal prints its original token
text, binary and logical expressions print parenthesized. -/
def Expr.str : Expr → String
  | .ident i => i.str
  | .literal tlv _ _ => tlv
  | .binary l op r => "(" ++ l.str ++ " " ++ op ++ " " ++ r.str ++ ")"
  | .logical l op r => "(" ++ l.str ++ " " ++ op ++ " " ++ r.str ++ ")"

/-- `ast.JoinClause`. -/
structure JoinClause where
  joinType : String
  rightTable : Identifier
  onCondition : Expr
  deriving DecidableEq, Repr

/-- `ast.JoinClause.String()`. -/
def JoinClause.str (j : JoinClause) : String :=
  j.joinType ++ " JOIN " ++ j.rightTable.str ++ " ON " ++ j.onCondition.str

/-- AST statements (`ast.Statement` implementations).  The Go
`UpdateStatement.Updates` map is represented as an association list in
parser insertion order with map-overwrite semantics. -/
inductive Statement where
  | select (fields : List Identifier) (tableName : Identifier)
      (joins : List JoinClause) (whereClause : Option Expr)
  | insert (tableName : Identifier) (columns : List Identifier)
      (values : List Expr)
  | update (tableName : Identifier) (updates : List (String × Expr))
      (whereClause : Option Expr)
  | delete (tableName : Identifier) (whereClause : Option Expr)
  | createDatabase (name : String)
  | dropDatabase (name : String)
  | alterDatabase (name newName : String)
  | useDatabase (name : String)
  deriving DecidableEq, Repr

/-- Comma-separated rendering of a field list. -/
def fieldsStr : List Identifier → String
  | [] => ""
  | [f] => f.str
  | f :: rest => f.str ++ ", " ++ fieldsStr rest

/-- Comma-separated rendering of an expression list. -/
def exprsStr : List Expr → String
  | [] => ""
  | [e] => e.str
  | e :: rest => e.str ++ ", " ++ exprsStr rest

/-- Comma-separated rendering of SET assignments. -/
def updatesStr : List (String × Expr) → String
  | [] => ""
  | [(c, e)] => c ++ " = " ++ e.str
  | (c, e) :: rest => c ++ " = " ++ e.str ++ ", " ++ updatesStr rest

/-- Space-prefixed rendering of the JOIN clauses of a SELECT. -/
def joinsStr : List JoinClause → String
  | [] => ""
  | j :: rest => " " ++ j.str ++ joinsStr rest

/-- Optional WHERE suffix of a statement rendering. -/
def whereStr : Option Expr → String
  | none => ""
  | some e => " WHERE " ++ e.str

/-- `String()` of AST statements (`ast/nodes.go`; the DDL statements
print their defining keywords and name). -/
def Statement.str : Statement → String
  | .select fields tableName joins wc =>
    "SELECT " ++ fieldsStr fields ++ " FROM " ++ tableName.str
      ++ joinsStr joins ++ whereStr wc
  | .insert tableName columns values =>
    "INSERT INTO " ++ tableName.str ++ " (" ++ fieldsStr columns
      ++ ") VALUES (" ++ exprsStr values ++ ")"
  | .update tableName updates wc =>
    "UPDATE " ++ tableName.str ++ " SET " ++ updatesStr updates ++ whereStr wc
  | .delete tableName wc =>
    "DELETE FROM " ++ tableName.str ++ whereStr wc
  | .createDatabase name => "CREATE DATABASE " ++ name
  | .dropDatabase name => "DROP DATABASE " ++ name
  | .alterDatabase name newName =>
    "ALTER DATABASE " ++ name ++ " RENAME TO " ++ newName
  | .useDatabase name => "USE " ++ name

/-! ## Parser (`internal/parser`)

The Go parser walks a token array with a current token and one token of
lookahead, padding with EOF tokens past the end.  The embedding carries
the remaining token list: the current token is its head (EOF when
empty), the lookahead its second element, and advancing is `tail`.
Recursive parsers take a fuel parameter; every recursive call consumes
input, so the fuel chosen by `parse` always suffices. -/

/-- The padding token produced past the end of the token array. -/
def eofToken : Token := ⟨.EOF, ""⟩

/-- Current token of a parser state (`p.curTok`). -/
def curT (ts : List Token) : Token := ts.headD eofToken

/-- Parser result: a value plus the remaining tokens, or a parse error
message. -/
abbrev P (α : Type) := List Token → Except String (α × List Token)

/-- The single-quote character as a string. -/
def sqStr : String := String.singleton sq

/-- Numeric value of a digit character. -/
def digitVal (c : Char) : Nat := c.toNat - 48

/-- Natural number denoted by a digit string. -/
def natOfDigits (cs : List Char) : Nat :=
  cs.foldl (fun acc c => acc * 10 + digitVal c) 0

/-- Modelled from the spec: the Gregorian leap-year rule used by the
date validator (`validators.go` is not in the provided sources). -/
def isLeapYear (y : Nat) : Bool :=
  (y % 4 = 0 && y % 100 ≠ 0) || y % 400 = 0

/-- Modelled from the spec: days in a month of the Gregorian calendar. -/
def daysInMonth (y m : Nat) : Nat :=
  if m = 2 then (if isLeapYear y then 29 else 28)
  else if m = 4 || m = 6 || m = 9 || m = 11 then 30
  else 31

/-- Modelled from the spec: the DATE format validator — `YYYY-MM-DD`,
calendar-correct (spec §3). -/
def validateDate (s : String) : Bool :=
  match s.data with
  | [y1, y2, y3, y4, h1, m1, m2, h2, d1, d2] =>
    h1 = Char.ofNat 45 && h2 = Char.ofNat 45 &&
    [y1, y2, y3, y4, m1, m2, d1, d2].all isDigitCh &&
    (let y := natOfDigits [y1, y2, y3, y4]
     let m := natOfDigits [m1, m2]
     let d := natOfDigits [d1, d2]
     1 ≤ m && m ≤ 12 && 1 ≤ d && d ≤ daysInMonth y m)
  | _ => false

/-- Modelled from the spec: the TIME format validator — `HH:MM` or
`HH:MM:SS`, 24-hour (spec §3). -/
def validateTime (s : String) : Bool :=
  match s.data with
  | [h1, h2, c1, m1, m2] =>
    c1 = Char.ofNat 58 && [h1, h2, m1, m2].all isDigitCh &&
    natOfDigits [h1, h2] ≤ 23 && natOfDigits [m1, m2] ≤ 59
  | [h1, h2, c1, m1, m2, c2, s1, s2] =>
    c1 = Char.ofNat 58 && c2 = Char.ofNat 58 &&
    [h1, h2, m1, m2, s1, s2].all isDigitCh &&
    natOfDigits [h1, h2] ≤ 23 && natOfDigits [m1, m2] ≤ 59 &&
    natOfDigits [s1, s2] ≤ 59
  | _ => false

/-- Modelled from the spec: the EMAIL format validator — exactly one
`@`, a non-empty local part, and a domain containing `.` (spec §3). -/
def validateEmail (s : String) : Bool :=
  let atChar := Char.ofNat 64
  let local_ := s.data.takeWhile (fun c => c ≠ atChar)
  let rest := s.data.dropWhile (fun c => c ≠ atChar)
  match rest with
  | _ :: domain =>
    local_ ≠ [] && domain.all (fun c => c ≠ atChar) &&
    domain.any (fun c => c = Char.ofNat 46)
  | [] => false

/-- Go `strconv.Atoi` success condition on a lexer NUMBER literal: a
non-empty digit string (the 64-bit range bound is not modelled; no
claim involves out-of-range literals). -/
def isIntString (s : String) : Bool := s.data ≠ [] && s.data.all isDigitCh

/-- Decimal-float syntax accepted after `Atoi` fails: `digits.digits`,
as the lexer emits. -/
def isFloatString (s : String) : Bool :=
  let intPart := s.data.takeWhile isDigitCh
  match s.data.dropWhile isDigitCh with
  | c :: frac =>
    intPart ≠ [] && c = Char.ofNat 46 && frac ≠ [] && frac.all isDigitCh
  | [] => false

/-- Exact rational denoted by a `digits.digits` literal (the model of
the Go `float64` produced by `strconv.ParseFloat`; see the file
header). -/
def ratOfDecimal (s : String) : ℚ :=
  let intPart := s.data.takeWhile isDigitCh
  match s.data.dropWhile isDigitCh with
  | _ :: frac =>
    (natOfDigits intPart : ℚ) + (natOfDigits frac : ℚ) / ((10 : ℚ) ^ frac.length)
  | [] => (natOfDigits intPart : ℚ)

/-- Helper of `helpers.go` (its file is not in the provided sources;
the shape follows the sibling checks in `identifier.go` and spec §4.2):
token kinds usable as column identifiers. -/
def isIdentifierOrKeyword : TokenType → Bool
  | .IDENTIFIER | .EMAIL | .DATE | .TIME => true
  | _ => false

/-- Helper of `helpers.go`: the typed-literal keywords. -/
def isTypedLiteralKeyword : TokenType → Bool
  | .EMAIL | .DATE | .TIME => true
  | _ => false

/-- Helper of `helpers.go`: the comparison operator token kinds
(spec §4.2: `=`, `!=`, `<>`, `<`, `>`, `<=`, `>=`). -/
def isComparisonOperator : TokenType → Bool
  | .EQUALS | .LESS_THAN | .GREATER_THAN | .LESS_EQUAL
  | .GREATER_EQUAL | .NOT_EQUALS => true
  | _ => false

/-- `parseAtom` (`literal.go` part of the parser): identifiers, plain
literals, and DATE/TIME/EMAIL disambiguated by one token of lookahead.
WHERE-clause identifiers keep their original case. -/
def parseAtom : P Expr := fun ts =>
  match (curT ts).type with
  | .IDENTIFIER =>
    let val := (curT ts).literal
    let ts1 := ts.tail
    if (curT ts1).type = .DOT then
      let ts2 := ts1.tail
      if (curT ts2).type = .IDENTIFIER then
        let colName := (curT ts2).literal
        .ok (.ident ⟨val ++ "." ++ colName, colName, val⟩, ts2.tail)
      else .error ("expected column name after dot, got " ++ (curT ts2).literal)
    else .ok (.ident ⟨val, val, ""⟩, ts1)
  | .DATE =>
    let keyword := (curT ts).literal
    let ts1 := ts.tail
    if (curT ts1).type = .STRING then
      let value := (curT ts1).literal
      if validateDate value then
        .ok (.literal ("DATE " ++ sqStr ++ value ++ sqStr) (.vstr value) .date, ts1.tail)
      else .error "DATE validation failed"
    else .ok (.ident ⟨strToLower keyword, strToLower keyword, ""⟩, ts1)
  | .TIME =>
    let keyword := (curT ts).literal
    let ts1 := ts.tail
    if (curT ts1).type = .STRING then
      let value := (curT ts1).literal
      if validateTime value then
        .ok (.literal ("TIME " ++ sqStr ++ value ++ sqStr) (.vstr value) .time, ts1.tail)
      else .error "TIME validation failed"
    else .ok (.ident ⟨strToLower keyword, strToLower keyword, ""⟩, ts1)
  | .EMAIL =>
    let keyword := (curT ts).literal
    let ts1 := ts.tail
    if (curT ts1).type = .STRING then
      let value := (curT ts1).literal
      if validateEmail value then
        .ok (.literal ("EMAIL " ++ sqStr ++ value ++ sqStr) (.vstr value) .email, ts1.tail)
      else .error "EMAIL validation failed"
    else .ok (.ident ⟨strToLower keyword, strToLower keyword, ""⟩, ts1)
  | .STRING =>
    let val := (curT ts).literal
    .ok (.literal val (.vstr val) .string, ts.tail)
  | .NUMBER =>
    let valStr := (curT ts).literal
    if isIntString valStr then
      .ok (.literal valStr (.vint (natOfDigits valStr.data)) .int, ts.tail)
    else if isFloatString valStr then
      .ok (.literal valStr (.vfloat (ratOfDecimal valStr)) .float, ts.tail)
    else .error ("invalid number: " ++ valStr)
  | .TRUE => .ok (.literal "true" (.vbool true) .bool, ts.tail)
  | .FALSE => .ok (.literal "false" (.vbool false) .bool, ts.tail)
  | _ => .error ("unexpected token in expression: " ++ (curT ts).literal)

mutual

/-- `parseOrExpression` (`expression.go`): OR chains,
left-associative, lowest precedence. -/
def parseOrExpression : Nat → P Expr
  | 0, _ => .error "parser fuel exhausted"
  | fuel + 1, ts =>
    match parseAndExpression fuel ts with
    | .error e => .error e
    | .ok (left, ts1) => orLoop fuel left ts1

/-- The `for curTok = OR` loop of `parseOrExpression`. -/
def orLoop : Nat → Expr → P Expr
  | 0, _, _ => .error "parser fuel exhausted"
  | fuel + 1, left, ts =>
    if (curT ts).type = .OR then
      match parseAndExpression fuel ts.tail with
      | .error e => .error e
      | .ok (right, ts1) => orLoop fuel (.logical left (curT ts).literal right) ts1
    else .ok (left, ts)

/-- `parseAndExpression`: AND chains, left-associative, binding tighter
than OR. -/
def parseAndExpression : Nat → P Expr
  | 0, _ => .error "parser fuel exhausted"
  | fuel + 1, ts =>
    match parseComparisonExpression fuel ts with
    | .error e => .error e
    | .ok (left, ts1) => andLoop fuel left ts1

/-- The `for curTok = AND` loop of `parseAndExpression`. -/
def andLoop : Nat → Expr → P Expr
  | 0, _, _ => .error "parser fuel exhausted"
  | fuel + 1, left, ts =>
    if (curT ts).type = .AND then
      match parseComparisonExpression fuel ts.tail with
      | .error e => .error e
      | .ok (right, ts1) => andLoop fuel (.logical left (curT ts).literal right) ts1
    else .ok (left, ts)

/-- `parseComparisonExpression`: parenthesized groups or an atom with
an optional comparison. -/
def parseComparisonExpression : Nat → P Expr
  | 0, _ => .error "parser fuel exhausted"
  | fuel + 1, ts =>
    if (curT ts).type = .PAREN_OPEN then
      match parseOrExpression fuel ts.tail with
      | .error e => .error e
      | .ok (e, ts1) =>
        if (curT ts1).type = .PAREN_CLOSE then .ok (e, ts1.tail)
        else .error ("expected ), got " ++ (curT ts1).literal)
    else
      match parseAtom ts with
      | .error e => .error e
      | .ok (left, ts1) =>
        if isComparisonOperator (curT ts1).type then
          match parseAtom ts1.tail with
          | .error e => .error e
          | .ok (right, ts2) => .ok (.binary left (curT ts1).literal right, ts2)
        else .ok (left, ts1)

end

/-- `parseExpression` (`expression.go` entry point). -/
def parseExpression (fuel : Nat) : P Expr := parseOrExpression fuel

/-- `parseQualifiedIdentifier` (`identifier.go`): field-list and
column-list identifiers, case-folded to lower case. -/
def parseQualifiedIdentifier : P Identifier := fun ts =>
  if isIdentifierOrKeyword (curT ts).type then
    let firstPart := strToLower (curT ts).literal
    let ts1 := ts.tail
    if (curT ts1).type = .DOT then
      let ts2 := ts1.tail
      if isIdentifierOrKeyword (curT ts2).type then
        let colName := strToLower (curT ts2).literal
        .ok (⟨firstPart ++ "." ++ colName, colName, firstPart⟩, ts2.tail)
      else .error ("expected column name after dot, got " ++ (curT ts2).literal)
    else .ok (⟨firstPart, firstPart, ""⟩, ts1)
  else .error ("expected identifier, got " ++ (curT ts).literal)

/-- The comma loop of `parseIdentifierList`. -/
def identListLoop : Nat → List Identifier → P (List Identifier)
  | 0, _, _ => .error "parser fuel exhausted"
  | fuel + 1, acc, ts =>
    if (curT ts).type = .COMMA then
      let ts1 := ts.tail
      if isIdentifierOrKeyword (curT ts1).type then
        match parseQualifiedIdentifier ts1 with
        | .error e => .error e
        | .ok (id, ts2) => identListLoop fuel (acc ++ [id]) ts2
      else .error ("expected identifier after comma, got " ++ (curT ts1).literal)
    else .ok (acc, ts)

/-- `parseIdentifierList` (`identifier.go`): SELECT field lists and
INSERT column lists, handling `*` and surrounding parentheses. -/
def parseIdentifierList (fuel : Nat) : P (List Identifier) := fun ts =>
  if (curT ts).type = .ASTERISK then .ok ([⟨"*", "*", ""⟩], ts.tail)
  else
    let ts0 := if (curT ts).type = .PAREN_OPEN then ts.tail else ts
    if isIdentifierOrKeyword (curT ts0).type then
      match parseQualifiedIdentifier ts0 with
      | .error e => .error e
      | .ok (id, ts1) =>
        match identListLoop fuel [id] ts1 with
        | .error e => .error e
        | .ok (ids, ts2) =>
          let ts3 := if (curT ts2).type = .PAREN_CLOSE then ts2.tail else ts2
          .ok (ids, ts3)
    else .error ("expected identifier, got " ++ (curT ts0).literal)

/-- The comma loop of `parseExpressionList`. -/
def exprListLoop : Nat → List Expr → P (List Expr)
  | 0, _, _ => .error "parser fuel exhausted"
  | fuel + 1, acc, ts =>
    if (curT ts).type = .COMMA then
      match parseExpression fuel ts.tail with
      | .error e => .error e
      | .ok (e, ts1) => exprListLoop fuel (acc ++ [e]) ts1
    else .ok (acc, ts)

/-- `parseExpressionList` (`identifier.go`): INSERT VALUES lists,
handling surrounding parentheses. -/
def parseExpressionList (fuel : Nat) : P (List Expr) := fun ts =>
  let ts0 := if (curT ts).type = .PAREN_OPEN then ts.tail else ts
  match parseExpression fuel ts0 with
  | .error e => .error e
  | .ok (e, ts1) =>
    match exprListLoop fuel [e] ts1 with
    | .error e => .error e
    | .ok (es, ts2) =>
      let ts3 := if (curT ts2).type = .PAREN_CLOSE then ts2.tail else ts2
      .ok (es, ts3)

/-- `isJoinKeyword` (`statement_select.go`). -/
def isJoinKeyword : TokenType → Bool
  | .INNER | .LEFT | .RIGHT | .FULL | .JOIN => true
  | _ => false

/-- `parseJoin` (`statement_select.go`): `[INNER|LEFT|RIGHT|FULL]
[OUTER] JOIN table ON condition`; a bare JOIN defaults to INNER. -/
def parseJoin (fuel : Nat) : P JoinClause := fun ts =>
  let jt? : Option (String × List Token) :=
    match (curT ts).type with
    | .INNER => some ("INNER", ts.tail)
    | .LEFT => some ("LEFT", ts.tail)
    | .RIGHT => some ("RIGHT", ts.tail)
    | .FULL => some ("FULL", ts.tail)
    | .JOIN => some ("INNER", ts)
    | _ => none
  match jt? with
  | none => .error ("expected JOIN keyword, got " ++ (curT ts).literal)
  | some (jt, ts1) =>
    let ts2 := if (curT ts1).type = .OUTER then ts1.tail else ts1
    if (curT ts2).type = .JOIN then
      let ts3 := ts2.tail
      if (curT ts3).type = .IDENTIFIER then
        let rt : Identifier := ⟨(curT ts3).literal, (curT ts3).literal, ""⟩
        let ts4 := ts3.tail
        if (curT ts4).type = .ON then
          match parseExpression fuel ts4.tail with
          | .error e => .error ("failed to parse JOIN condition: " ++ e)
          | .ok (cond, ts5) => .ok (⟨jt, rt, cond⟩, ts5)
        else .error ("expected ON, got " ++ (curT ts4).literal)
      else .error ("expected table name after JOIN, got " ++ (curT ts3).literal)
    else .error ("expected JOIN, got " ++ (curT ts2).literal)

/-- The JOIN loop of `parseSelect`. -/
def joinLoop : Nat → List JoinClause → P (List JoinClause)
  | 0, _, _ => .error "parser fuel exhausted"
  | fuel + 1, acc, ts =>
    if isJoinKeyword (curT ts).type then
      match parseJoin fuel ts with
      | .error e => .error e
      | .ok (j, ts1) => joinLoop fuel (acc ++ [j]) ts1
    else .ok (acc, ts)

/-- `parseSelect` (`statement_select.go`). -/
def parseSelect (fuel : Nat) : P Statement := fun ts =>
  let ts1 := ts.tail
  match parseIdentifierList fuel ts1 with
  | .error e => .error e
  | .ok (fields, ts2) =>
    if (curT ts2).type = .FROM then
      let ts3 := ts2.tail
      if (curT ts3).type = .IDENTIFIER then
        let tn : Identifier := ⟨(curT ts3).literal, (curT ts3).literal, ""⟩
        let ts4 := ts3.tail
        match joinLoop fuel [] ts4 with
        | .error e => .error e
        | .ok (joins, ts5) =>
          if (curT ts5).type = .WHERE then
            match parseExpression fuel ts5.tail with
            | .error e => .error e
            | .ok (w, ts6) =>
              let ts7 := if (curT ts6).type = .SEMICOLON then ts6.tail else ts6
              .ok (.select fields tn joins (some w), ts7)
          else
            let ts6 := if (curT ts5).type = .SEMICOLON then ts5.tail else ts5
            .ok (.select fields tn joins none, ts6)
      else .error ("expected table name, got " ++ (curT ts3).literal)
    else .error ("expected FROM, got " ++ (curT ts2).literal)

/-- `parseInsert` (`statement_insert.go`): the parenthesized column
list is parsed only when an opening parenthesis is present. -/
def parseInsert (fuel : Nat) : P Statement := fun ts =>
  let ts1 := ts.tail
  if (curT ts1).type = .INTO then
    let ts2 := ts1.tail
    if (curT ts2).type = .IDENTIFIER then
      let tn : Identifier := ⟨(curT ts2).literal, (curT ts2).literal, ""⟩
      let ts3 := ts2.tail
      let cols? : Except String (List Identifier × List Token) :=
        if (curT ts3).type = .PAREN_OPEN then parseIdentifierList fuel ts3
        else .ok ([], ts3)
      match cols? with
      | .error e => .error e
      | .ok (cols, ts4) =>
        if (curT ts4).type = .VALUES then
          let ts5 := ts4.tail
          if (curT ts5).type = .PAREN_OPEN then
            match parseExpressionList fuel ts5 with
            | .error e => .error e
            | .ok (vals, ts6) =>
              let ts7 := if (curT ts6).type = .SEMICOLON then ts6.tail else ts6
              .ok (.insert tn cols vals, ts7)
          else .error ("expected (, got " ++ (curT ts5).literal)
        else .error ("expected VALUES, got " ++ (curT ts4).literal)
    else .error ("expected table name, got " ++ (curT ts2).literal)
  else .error ("expected INTO, got " ++ (curT ts1).literal)

/-- Go map assignment on the `Updates` association list: overwrite an
existing key in place, otherwise append. -/
def insertUpdate (ups : List (String × Expr)) (k : String) (v : Expr) :
    List (String × Expr) :=
  if ups.any (fun p => p.1 = k) then
    ups.map (fun p => if p.1 = k then (k, v) else p)
  else ups ++ [(k, v)]

/-- The SET-assignment loop of `parseUpdate` (`statement_update.go`). -/
def setLoop : Nat → List (String × Expr) → P (List (String × Expr))
  | 0, _, _ => .error "parser fuel exhausted"
  | fuel + 1, acc, ts =>
    let colName? : Option String :=
      if (curT ts).type = .IDENTIFIER then some (curT ts).literal
      else if isTypedLiteralKeyword (curT ts).type then
        some (strToLower (curT ts).literal)
      else none
    match colName? with
    | none => .error ("expected column name in SET clause, got " ++ (curT ts).literal)
    | some colName =>
      let ts1 := ts.tail
      if (curT ts1).type = .EQUALS then
        match parseAtom ts1.tail with
        | .error e => .error ("failed to parse value in SET clause: " ++ e)
        | .ok (val, ts2) =>
          match val with
          | .literal _ _ _ =>
            let acc2 := insertUpdate acc colName val
            if (curT ts2).type = .COMMA then setLoop fuel acc2 ts2.tail
            else .ok (acc2, ts2)
          | _ => .error "expected literal value in SET clause"
      else .error ("expected = after column name, got " ++ (curT ts1).literal)

/-- `parseUpdate` (`statement_update.go`). -/
def parseUpdate (fuel : Nat) : P Statement := fun ts =>
  let ts1 := ts.tail
  if (curT ts1).type = .IDENTIFIER then
    let tn : Identifier := ⟨(curT ts1).literal, (curT ts1).literal, ""⟩
    let ts2 := ts1.tail
    if (curT ts2).type = .SET then
      match setLoop fuel [] ts2.tail with
      | .error e => .error e
      | .ok (ups, ts3) =>
        if (curT ts3).type = .WHERE then
          match parseExpression fuel ts3.tail with
          | .error e => .error ("failed to parse WHERE clause: " ++ e)
          | .ok (w, ts4) =>
            let ts5 := if (curT ts4).type = .SEMICOLON then ts4.tail else ts4
            .ok (.update tn ups (some w), ts5)
        else
          let ts4 := if (curT ts3).type = .SEMICOLON then ts3.tail else ts3
          .ok (.update tn ups none, ts4)
    else .error ("expected SET, got " ++ (curT ts2).literal)
  else .error ("expected table name after UPDATE, got " ++ (curT ts1).literal)

/-- `parseDelete` (`statement_delete.go`). -/
def parseDelete (fuel : Nat) : P Statement := fun ts =>
  let ts1 := ts.tail
  if (curT ts1).type = .FROM then
    let ts2 := ts1.tail
    if (curT ts2).type = .IDENTIFIER then
      let tn : Identifier := ⟨(curT ts2).literal, (curT ts2).literal, ""⟩
      let ts3 := ts2.tail
      if (curT ts3).type = .WHERE then
        match parseExpression fuel ts3.tail with
        | .error e => .error ("failed to parse WHERE clause: " ++ e)
        | .ok (w, ts4) =>
          let ts5 := if (curT ts4).type = .SEMICOLON then ts4.tail else ts4
          .ok (.delete tn (some w), ts5)
      else
        let ts4 := if (curT ts3).type = .SEMICOLON then ts3.tail else ts3
        .ok (.delete tn none, ts4)
    else .error ("expected table name after FROM, got " ++ (curT ts2).literal)
  else .error ("expected FROM after DELETE, got " ++ (curT ts1).literal)

/-- `parseCreate` (`statement_dbms.go`), using the Go parser's
`expectPeek` lookahead moves. -/
def parseCreate : P Statement := fun ts =>
  if (curT ts.tail).type = .DATABASE then
    let ts1 := ts.tail
    if (curT ts1.tail).type = .IDENTIFIER then
      let ts2 := ts1.tail
      let name := (curT ts2).literal
      let ts3 := if (curT ts2.tail).type = .SEMICOLON then ts2.tail else ts2
      .ok (.createDatabase name, ts3)
    else .error ("expected database name, got " ++ (curT ts1.tail).literal)
  else .error ("expected DATABASE after CREATE, got " ++ (curT ts.tail).literal)

/-- `parseDrop` (`statement_dbms.go`). -/
def parseDrop : P Statement := fun ts =>
  if (curT ts.tail).type = .DATABASE then
    let ts1 := ts.tail
    if (curT ts1.tail).type = .IDENTIFIER then
      let ts2 := ts1.tail
      let name := (curT ts2).literal
      let ts3 := if (curT ts2.tail).type = .SEMICOLON then ts2.tail else ts2
      .ok (.dropDatabase name, ts3)
    else .error ("expected database name, got " ++ (curT ts1.tail).literal)
  else .error ("expected DATABASE after DROP, got " ++ (curT ts.tail).literal)

/-- `parseUse` (`statement_dbms.go`). -/
def parseUse : P Statement := fun ts =>
  if (curT ts.tail).type = .IDENTIFIER then
    let ts1 := ts.tail
    let name := (curT ts1).literal
    let ts2 := if (curT ts1.tail).type = .SEMICOLON then ts1.tail else ts1
    .ok (.useDatabase name, ts2)
  else .error ("expected database name after USE, got " ++ (curT ts.tail).literal)

/-- `parseAlter` (`statement_dbms.go`). -/
def parseAlter : P Statement := fun ts =>
  if (curT ts.tail).type = .DATABASE then
    let ts1 := ts.tail
    if (curT ts1.tail).type = .IDENTIFIER then
      let ts2 := ts1.tail
      let dbName := (curT ts2).literal
      if (curT ts2.tail).type = .RENAME then
        let ts3 := ts2.tail
        if (curT ts3.tail).type = .TO then
          let ts4 := ts3.tail
          if (curT ts4.tail).type = .IDENTIFIER then
            let ts5 := ts4.tail
            let newName := (curT ts5).literal
            let ts6 := if (curT ts5.tail).type = .SEMICOLON then ts5.tail else ts5
            .ok (.alterDatabase dbName newName, ts6)
          else .error ("expected new database name, got " ++ (curT ts4.tail).literal)
        else .error ("expected TO after RENAME, got " ++ (curT ts3.tail).literal)
      else .error ("expected RENAME after database name, got " ++ (curT ts2.tail).literal)
    else .error ("expected database name, got " ++ (curT ts1.tail).literal)
  else .error ("expected DATABASE after ALTER, got " ++ (curT ts.tail).literal)

/-- `Parser.Parse` (`parser.go`): dispatch on the first token. -/
def parseStatementF (fuel : Nat) : P Statement := fun ts =>
  match (curT ts).type with
  | .SELECT => parseSelect fuel ts
  | .INSERT => parseInsert fuel ts
  | .UPDATE => parseUpdate fuel ts
  | .DELETE => parseDelete fuel ts
  | .CREATE => parseCreate ts
  | .DROP => parseDrop ts
  | .ALTER => parseAlter ts
  | .USE => parseUse ts
  | _ => .error "unexpected token, expected a valid SQL statement"

/-- Fuel bound sufficient for any token list: every recursive parser
call consumes at least one token, and the static call chain between
consumptions has depth at most three. -/
def parseFuel (ts : List Token) : Nat := 3 * ts.length + 8

/-- Parse a token list into a statement (trailing tokens are ignored,
as in the Go parser). -/
def parse (ts : List Token) : Except String Statement :=
  (parseStatementF (parseFuel ts) ts).map Prod.fst

/-- The lex-then-parse front half of `Engine.Execute`. -/
def parseSQL (s : String) : Except String Statement :=
  match tokenize s with
  | .error e => .error ("lexer error: " ++ e)
  | .ok ts =>
    match parse ts with
    | .error e => .error ("parse error: " ++ e)
    | .ok stmt => .ok stmt

/-! ## Domain model (`internal/domain`) -/

/-- Column types (`schema.ColumnType`). -/
inductive ColumnType where
  | int | float | text | bool | date | time | email
  deriving DecidableEq, Repr

/-- The string form of a column type (Go `string(col.Type)`). -/
def ColumnType.str : ColumnType → String
  | .int => "INT"
  | .float => "FLOAT"
  | .text => "TEXT"
  | .bool => "BOOL"
  | .date => "DATE"
  | .time => "TIME"
  | .email => "EMAIL"

/-- `schema.Column`: name, type and the four constraint flags. -/
structure Column where
  name : String
  type : ColumnType
  primaryKey : Bool := false
  unique : Bool := false
  notNull : Bool := false
  autoIncrement : Bool := false
  deriving DecidableEq, Repr

/-- `schema.TableSchema` (`table_schema.go`). -/
structure TableSchema where
  tableName : String
  columns : List Column
  deriving DecidableEq, Repr

/-- `data.Row`: a mapping from column name to value, as an association
list without duplicate keys; an absent key is NULL. -/
abbrev Row := List (String × Value)

/-- Map lookup on a row. -/
def rowGet (r : Row) (k : String) : Option Value :=
  (r.find? (fun kv => kv.1 = k)).map (fun kv => kv.2)

/-- Map assignment on a row: overwrite in place or append. -/
def rowSet (r : Row) (k : String) (v : Value) : Row :=
  if r.any (fun kv => kv.1 = k) then
    r.map (fun kv => if kv.1 = k then (k, v) else kv)
  else r ++ [(k, v)]

/-- Map deletion on a row. -/
def rowRemove (r : Row) (k : String) : Row := r.filter (fun kv => kv.1 ≠ k)

/-- A unique index: value to row position, as an association list
(`Table.UniqueIndexes` entry). -/
abbrev UniqueIndex := List (Value × Nat)

/-- Index lookup. -/
def idxGet (idx : UniqueIndex) (v : Value) : Option Nat :=
  (idx.find? (fun e => e.1 = v)).map (fun e => e.2)

/-- `schema.Table`: schema, ordered row sequence and unique indexes
(the reader-writer lock is not modelled; execution here is
sequential). -/
structure Table where
  name : String
  path : String := ""
  schema : TableSchema
  rows : List Row
  uniqueIndexes : List (String × UniqueIndex) := []
  lastInsertId : Int := 0
  dirty : Bool := false
  deriving DecidableEq, Repr

/-- The unique index of a column (empty when absent). -/
def Table.indexOf (t : Table) (colName : String) : UniqueIndex :=
  match t.uniqueIndexes.find? (fun e => e.1 = colName) with
  | some e => e.2
  | none => []

/-- `schema.Database`: named container of tables. -/
structure Database where
  name : String
  path : String := ""
  tables : List (String × Table)
  deriving DecidableEq, Repr

/-- Go map lookup `db.Tables[name]`. -/
def Database.getTable (db : Database) (name : String) : Option Table :=
  (db.tables.find? (fun e => e.1 = name)).map (fun e => e.2)

/-- Go map assignment `db.Tables[name] = t`. -/
def Database.setTable (db : Database) (name : String) (t : Table) : Database :=
  if db.tables.any (fun e => e.1 = name) then
    { db with tables := db.tables.map (fun e => if e.1 = name then (name, t) else e) }
  else { db with tables := db.tables ++ [(name, t)] }

/-- `findColumnInSchema` (`executor/executor.go`): first schema column
with the given name. -/
def findColumnInSchema (t : Table) (colName : String) : Option Column :=
  t.schema.columns.find? (fun c => c.name = colName)

/-! ## Value comparison and coercion (`internal/util`, spec §4.8) -/

/-- Numeric view of a value (int or float), as the exact rational. -/
def numValue : Value → Option ℚ
  | .vint i => some (i : ℚ)
  | .vfloat q => some q
  | _ => none

/-- Ordered comparison dispatch on an operator literal. -/
def cmpOrd {α : Type} [LinearOrder α] [DecidableEq α] (op : String) (x y : α) : Bool :=
  if op = "=" then x = y
  else if op = "!=" || op = "<>" then x ≠ y
  else if op = "<" then x < y
  else if op = ">" then x > y
  else if op = "<=" then x ≤ y
  else if op = ">=" then x ≥ y
  else false

/-- Modelled from the spec: value comparison of §4.8 — numerics compare
numerically, strings lexicographically, otherwise only equality
operators succeed (structurally) and ordering yields false (the
`util` comparison helpers are not in the provided sources). -/
def compareValues (op : String) (a b : Value) : Bool :=
  match numValue a, numValue b with
  | some x, some y => cmpOrd op x y
  | _, _ =>
    match a, b with
    | .vstr s1, .vstr s2 => cmpOrd op s1 s2
    | _, _ =>
      if op = "=" then a = b
      else if op = "!=" || op = "<>" then a ≠ b
      else false

/-- Does a literal kind already match a column type (spec §4.8
pass-through case)? -/
def kindMatches : LiteralKind → ColumnType → Bool
  | .int, .int => true
  | .float, .float => true
  | .string, .text => true
  | .bool, .bool => true
  | .date, .date => true
  | .time, .time => true
  | .email, .email => true
  | _, _ => false

/-- Modelled from the spec: `types.ConvertLiteralToSchemaType`
(spec §4.8) — pass-through on kind match, validated reclassification of
strings bound to DATE/TIME/EMAIL, numeric widening of int to FLOAT,
`TypeMismatch` otherwise. -/
def convertLiteral (v : Value) (k : LiteralKind) (ct : ColumnType) :
    Except String Value :=
  if kindMatches k ct then .ok v
  else
    match ct, k, v with
    | .date, .string, .vstr s =>
      if validateDate s then .ok (.vstr s) else .error "invalid DATE value"
    | .time, .string, .vstr s =>
      if validateTime s then .ok (.vstr s) else .error "invalid TIME value"
    | .email, .string, .vstr s =>
      if validateEmail s then .ok (.vstr s) else .error "invalid EMAIL value"
    | .float, .int, .vint i => .ok (.vfloat (i : ℚ))
    | _, _, _ => .error "type mismatch"

/-! ## Predicates and projection (`internal/executor/predicate`,
`internal/query/operations/projection`) -/

/-- Modelled from the spec: identifier resolution of the predicate
compiler (spec §4.4) — a qualified identifier looks up its qualified
key; a bare identifier looks up the bare key, then falls back to a
qualified key with a matching trailing component. -/
def resolveIdent (row : Row) (id : Identifier) : Option Value :=
  if id.table ≠ "" then rowGet row (id.table ++ "." ++ id.value)
  else
    match rowGet row id.value with
    | some v => some v
    | none =>
      (row.find? (fun kv => kv.1.endsWith ("." ++ id.value))).map (fun kv => kv.2)

/-- Value of an atomic operand of a comparison on a given row. -/
def evalAtomV (row : Row) : Expr → Option Value
  | .ident id => resolveIdent row id
  | .literal _ v _ => some v
  | _ => none

/-- Modelled from the spec: `predicate.Build` (spec §4.4) — compile a
WHERE expression to a row filter; comparisons involving an absent value
are false, logical operators combine compiled sub-filters. -/
def predBuild : Expr → Except String (Row → Bool)
  | .binary l op r =>
    .ok (fun row =>
      match evalAtomV row l, evalAtomV row r with
      | some a, some b => compareValues op a b
      | _, _ => false)
  | .logical l op r =>
    match predBuild l, predBuild r with
    | .ok pl, .ok pr =>
      if strToUpper op = "AND" then .ok (fun row => pl row && pr row)
      else if strToUpper op = "OR" then .ok (fun row => pl row || pr row)
      else .error ("unsupported logical operator: " ++ op)
    | .error e, _ => .error e
    | _, .error e => .error e
  | _ => .error "unsupported expression in predicate"

/-- `projection.ColumnRef`. -/
structure ColumnRef where
  table : String := ""
  column : String
  aliasName : String := ""
  deriving DecidableEq, Repr

/-- `projection.Projection`. -/
structure Projection where
  selectAll : Bool
  columns : List ColumnRef := []
  deriving DecidableEq, Repr

/-- `projection.NewProjection()`: a SELECT-all projection. -/
def NewProjection : Projection := ⟨true, []⟩

/-- Modelled from the spec: projection of one bare row (spec §4.5
Project) — `SELECT *` keeps the row; an explicit reference resolves
exactly, a reference qualified by the scanned table resolves its bare
column, a bare reference falls back to a trailing-component match;
unresolved references are omitted. -/
def ProjectRow (row : Row) (proj : Projection) (tableName : String) : Row :=
  if proj.selectAll then row
  else
    proj.columns.filterMap (fun ref =>
      if ref.table ≠ "" && ref.table ≠ tableName then
        (rowGet row (ref.table ++ "." ++ ref.column)).map
          (fun v => (ref.table ++ "." ++ ref.column, v))
      else
        match rowGet row ref.column with
        | some v => some (ref.column, v)
        | none =>
          row.find? (fun kv => kv.1.endsWith ("." ++ ref.column)))

/-- Modelled from the spec: projection of one qualified (joined) row. -/
def ProjectJoinedRow (row : Row) (proj : Projection) : Row :=
  if proj.selectAll then row
  else
    proj.columns.filterMap (fun ref =>
      if ref.table ≠ "" then
        (rowGet row (ref.table ++ "." ++ ref.column)).map
          (fun v => (ref.table ++ "." ++ ref.column, v))
      else
        match rowGet row ref.column with
        | some v => some (ref.column, v)
        | none =>
          row.find? (fun kv => kv.1.endsWith ("." ++ ref.column)))

/-! ## Hash join (`internal/query/operations/join`) -/

/-- `join.JoinType`. -/
inductive JoinType where
  | inner | left | right | full
  deriving DecidableEq, Repr

/-- Modelled from the spec: JOIN key equality (spec §4.8, clauses 1 and
2 only; absent values are handled by the caller and match nothing). -/
def joinKeyEq (a b : Value) : Bool :=
  match numValue a, numValue b with
  | some x, some y => x = y
  | _, _ =>
    match a, b with
    | .vstr s1, .vstr s2 => s1 = s2
    | _, _ => false

/-- Qualify every key of a row by its base-table name. -/
def qualifyRow (tname : String) (r : Row) : Row :=
  r.map (fun kv => (tname ++ "." ++ kv.1, kv.2))

/-- Modelled from the spec: `join.ExecuteJoin` (spec §4.5 Join) — the
hash equi-join with its four variants.  Output keys are
`table.column`-qualified; a WHERE predicate is applied after the join;
the projection shapes each emitted row.  Emission order follows the
spec: probe-side order, with the unmatched build-side rows of
RIGHT/FULL appended. -/
def ExecuteJoin (leftT rightT : Table) (leftCol rightCol : String)
    (jt : JoinType) (pred : Option (Row → Bool)) (proj : Projection) :
    List Row :=
  let keysMatch : Row → Row → Bool := fun lr rr =>
    match rowGet lr leftCol, rowGet rr rightCol with
    | some a, some b => joinKeyEq a b
    | _, _ => false
  let merged : Row → Row → Row := fun lr rr =>
    qualifyRow leftT.name lr ++ qualifyRow rightT.name rr
  let joined : List Row :=
    match jt with
    | .inner =>
      leftT.rows.flatMap (fun lr =>
        (rightT.rows.filter (keysMatch lr)).map (merged lr))
    | .left =>
      leftT.rows.flatMap (fun lr =>
        let ms := rightT.rows.filter (keysMatch lr)
        if ms.isEmpty then [qualifyRow leftT.name lr] else ms.map (merged lr))
    | .right =>
      rightT.rows.flatMap (fun rr =>
        let ms := leftT.rows.filter (fun lr => keysMatch lr rr)
        if ms.isEmpty then [qualifyRow rightT.name rr]
        else ms.map (fun lr => merged lr rr))
    | .full =>
      leftT.rows.flatMap (fun lr =>
        let ms := rightT.rows.filter (keysMatch lr)
        if ms.isEmpty then [qualifyRow leftT.name lr] else ms.map (merged lr))
      ++ (rightT.rows.filter (fun rr =>
            ¬ leftT.rows.any (fun lr => keysMatch lr rr))).map
          (fun rr => qualifyRow rightT.name rr)
  let filtered :=
    match pred with
    | some p => joined.filter p
    | none => joined
  filtered.map (fun r => ProjectJoinedRow r proj)

/-! ## Statement executor (`internal/executor`) -/

/-- `executor.ColumnMetadata`. -/
structure ColumnMetadata where
  name : String
  type : String
  deriving DecidableEq, Repr

/-- `executor.Result`. -/
structure Result where
  columns : List String := []
  metadata : List ColumnMetadata := []
  rows : List Row := []
  message : String := ""
  rowsAffected : Nat := 0
  deriving DecidableEq, Repr

/-- `executeJoinSelect` (`join_executor.go`): the JOIN path of SELECT.
Rejects any number of JOIN clauses other than exactly one; specializes
the ON condition to a top-level `=` of two identifiers; builds the
column list from the two schemas for `SELECT *`, left columns first,
each in schema order. -/
def executeJoinSelect (fields : List Identifier) (tableName : Identifier)
    (joins : List JoinClause) (wc : Option Expr) (db : Database) :
    Except String Result :=
  match joins with
  | [joinClause] =>
    let leftTableName := tableName.value
    match db.getTable leftTableName with
    | none => .error ("left table not found: " ++ leftTableName)
    | some leftTable =>
      let rightTableName := joinClause.rightTable.value
      match db.getTable rightTableName with
      | none => .error ("right table not found: " ++ rightTableName)
      | some rightTable =>
        match joinClause.onCondition with
        | .binary bl op br =>
          if op ≠ "=" then .error "JOIN ON condition must use = operator"
          else
            match bl with
            | .ident leftIdent =>
              match br with
              | .ident rightIdent =>
                let leftJoinCol := leftIdent.value
                let rightJoinCol := rightIdent.value
                let joinType? : Option JoinType :=
                  if joinClause.joinType = "INNER" then some .inner
                  else if joinClause.joinType = "LEFT" then some .left
                  else if joinClause.joinType = "RIGHT" then some .right
                  else if joinClause.joinType = "FULL" then some .full
                  else none
                match joinType? with
                | none => .error ("unsupported JOIN type: " ++ joinClause.joinType)
                | some joinType =>
                  let star := fields.length = 1 &&
                    (fields.headD ⟨"", "", ""⟩).value = "*"
                  let proj : Projection :=
                    if star then NewProjection
                    else ⟨false, fields.map (fun f =>
                      if f.table ≠ "" then ⟨f.table, f.value, ""⟩
                      else ⟨"", f.value, ""⟩)⟩
                  let columns : List String :=
                    if star then
                      leftTable.schema.columns.map
                        (fun c => leftTableName ++ "." ++ c.name)
                      ++ rightTable.schema.columns.map
                        (fun c => rightTableName ++ "." ++ c.name)
                    else fields.map (fun f => f.str)
                  let pred? : Except String (Option (Row → Bool)) :=
                    match wc with
                    | some w =>
                      match predBuild w with
                      | .ok p => .ok (some p)
                      | .error e =>
                        .error ("failed to build WHERE predicate: " ++ e)
                    | none => .ok none
                  match pred? with
                  | .error e => .error e
                  | .ok pred =>
                    let rows := ExecuteJoin leftTable rightTable leftJoinCol
                      rightJoinCol joinType pred proj
                    .ok { columns := columns, rows := rows,
                          message := "Returned " ++ toString rows.length ++ " rows" }
              | _ => .error "right side of JOIN condition must be an identifier"
            | _ => .error "left side of JOIN condition must be an identifier"
        | _ => .error "JOIN ON condition must be a comparison expression"
  | _ =>
    .error ("multiple JOINs not yet supported (found "
      ++ toString joins.length ++ ")")

/-- Modelled from the spec: `Table.SelectAll` — all rows in stored
order (the domain `Table` method file is not in the provided
sources). -/
def Table.selectAll (t : Table) : List Row := t.rows

/-- Modelled from the spec: `Table.Select` — rows satisfying a
predicate, in stored order. -/
def Table.selectWhere (t : Table) (pred : Row → Bool) : List Row :=
  t.rows.filter pred

/-- `executeSelect` (`select_executor.go`, statement form): dispatches
JOIN queries to `executeJoinSelect`; otherwise scans one table, with
the `SELECT *` column list taken from the schema in declared order. -/
def executeSelect (fields : List Identifier) (tableName : Identifier)
    (joins : List JoinClause) (wc : Option Expr) (db : Database) :
    Except String Result :=
  if joins ≠ [] then executeJoinSelect fields tableName joins wc db
  else
    let tn := tableName.value
    match db.getTable tn with
    | none => .error ("table not found: " ++ tn)
    | some table =>
      let star := fields.length = 1 && (fields.headD ⟨"", "", ""⟩).value = "*"
      let proj : Projection :=
        if star then NewProjection
        else ⟨false, fields.map (fun f =>
          if f.table ≠ "" then ⟨f.table, f.value, ""⟩ else ⟨"", f.value, ""⟩)⟩
      let columns : List String :=
        if star then table.schema.columns.map (fun c => c.name)
        else fields.map (fun f => f.str)
      let metadata : List ColumnMetadata :=
        if star then
          table.schema.columns.map (fun c => ⟨c.name, c.type.str⟩)
        else
          fields.map (fun f =>
            match findColumnInSchema table f.value with
            | some c => ⟨f.str, c.type.str⟩
            | none => ⟨f.str, "TEXT"⟩)
      match wc with
      | none =>
        let rows := (Table.selectAll table).map (fun r => ProjectRow r proj tn)
        .ok { columns := columns, metadata := metadata, rows := rows,
              message := "Returned " ++ toString rows.length ++ " rows" }
      | some w =>
        match predBuild w with
        | .error e => .error e
        | .ok pred =>
          let rows := (Table.selectWhere table pred).map
            (fun r => ProjectRow r proj tn)
          .ok { columns := columns, metadata := metadata, rows := rows,
                message := "Returned " ++ toString rows.length ++ " rows" }

/-! ## Table mutation (`domain/schema` Table methods, modelled from the
spec §4.5 — the Go file holding `Table.Insert`, `Table.Update` and
`Table.Delete` is not in the provided sources; only their callers,
the domain README and the integration tests are). -/

/-- Constraint violations raised by table mutation (the
`domain/errors` constraint error type). -/
inductive ConstraintErr where
  | uniqueViolation (table column : String) (value : Value)
  | notNullViolation (table column : String)
  deriving DecidableEq, Repr

/-- Error text of a constraint violation (quote punctuation of the Go
messages is not reproduced). -/
def ConstraintErr.msg : ConstraintErr → String
  | .uniqueViolation t c _ => "unique constraint violation on " ++ t ++ "." ++ c
  | .notNullViolation t c => "not null constraint violation on " ++ t ++ "." ++ c

/-- Modelled from the spec: step 1 of Insert — assign
`last_insert_id + 1` to every AUTO_INCREMENT column missing a value,
incrementing the counter. -/
def applyAutoIncrement (cols : List Column) (row : Row) (lid : Int) :
    Row × Int :=
  cols.foldl
    (fun acc c =>
      if c.autoIncrement && (rowGet acc.1 c.name).isNone then
        (rowSet acc.1 c.name (.vint (acc.2 + 1)), acc.2 + 1)
      else acc)
    (row, lid)

/-- First NOT_NULL column missing a value in a row. -/
def findNotNullMissing (cols : List Column) (row : Row) : Option Column :=
  cols.find? (fun c => c.notNull && (rowGet row c.name).isNone)

/-- First UNIQUE or PRIMARY_KEY column whose value in the candidate row
is already present in the table's unique index. -/
def findInsertConflict (t : Table) (row : Row) :
    List Column → Option (String × Value)
  | [] => none
  | c :: rest =>
    if c.unique || c.primaryKey then
      match rowGet row c.name with
      | some v =>
        if (idxGet (t.indexOf c.name) v).isSome then some (c.name, v)
        else findInsertConflict t row rest
      | none => findInsertConflict t row rest
    else findInsertConflict t row rest

/-- Unique-index association update: record value `v` at position
`pos` for column `col`. -/
def idxSetEntry (idxs : List (String × UniqueIndex)) (col : String)
    (v : Value) (pos : Nat) : List (String × UniqueIndex) :=
  if idxs.any (fun e => e.1 = col) then
    idxs.map (fun e => if e.1 = col then (col, e.2 ++ [(v, pos)]) else e)
  else idxs ++ [(col, [(v, pos)])]

/-- Index entries added by an inserted row. -/
def updateIndexesOnInsert (t : Table) (row : Row) (pos : Nat) :
    List (String × UniqueIndex) :=
  t.schema.columns.foldl
    (fun idxs c =>
      if c.unique || c.primaryKey then
        match rowGet row c.name with
        | some v => idxSetEntry idxs c.name v pos
        | none => idxs
      else idxs)
    t.uniqueIndexes

/-- Modelled from the spec: `Table.Insert` (spec §4.5 Insert) —
auto-increment assignment, NOT_NULL check, unique-index conflict check,
then append plus index maintenance. -/
def Table.insertRow (t : Table) (row : Row) : Except ConstraintErr Table :=
  let ai := applyAutoIncrement t.schema.columns row t.lastInsertId
  match findNotNullMissing t.schema.columns ai.1 with
  | some c => .error (.notNullViolation t.name c.name)
  | none =>
    match findInsertConflict t ai.1 t.schema.columns with
    | some cv => .error (.uniqueViolation t.name cv.1 cv.2)
    | none =>
      .ok { t with rows := t.rows ++ [ai.1],
                   uniqueIndexes := updateIndexesOnInsert t ai.1 t.rows.length,
                   lastInsertId := ai.2, dirty := true }

/-- Assignment lookup in an UPDATE assignment list (`some none` is an
assignment to absent/NULL, the Go nil interface value). -/
def upsLookup (ups : List (String × Option Value)) (k : String) :
    Option (Option Value) :=
  (ups.find? (fun p => p.1 = k)).map (fun p => p.2)

/-- Map assignment on an UPDATE assignment list. -/
def upsSet (ups : List (String × Option Value)) (k : String)
    (v : Option Value) : List (String × Option Value) :=
  if ups.any (fun p => p.1 = k) then
    ups.map (fun p => if p.1 = k then (k, v) else p)
  else ups ++ [(k, v)]

/-- Overlay the assignments of an UPDATE on one row (an assignment to
absent removes the key). -/
def overlayRow (r : Row) (ups : List (String × Option Value)) : Row :=
  ups.foldl
    (fun acc p =>
      match p.2 with
      | some v => rowSet acc p.1 v
      | none => rowRemove acc p.1)
    r

/-- Positions of the rows an UPDATE or DELETE predicate selects, in
stored order (spec §4.5 Update step 1). -/
def Table.updatePositions (t : Table) (pred : Row → Bool) : List Nat :=
  (List.range t.rows.length).filter (fun i => pred (t.rows.getD i []))

/-- The proposed final row sequence of an UPDATE: selected rows with
the assignments overlaid, other rows untouched (spec §4.5 Update
step 2). -/
def Table.finalRows (t : Table) (pred : Row → Bool)
    (ups : List (String × Option Value)) : List Row :=
  t.rows.map (fun r => if pred r then overlayRow r ups else r)

/-- NOT_NULL check of an UPDATE: with at least one selected row, an
assignment setting a NOT_NULL column to absent is a violation
(spec §4.5 Update step 4). -/
def updateNotNullViolation (t : Table) (pred : Row → Bool)
    (ups : List (String × Option Value)) : Option ConstraintErr :=
  if (t.updatePositions pred).isEmpty then none
  else
    match t.schema.columns.find?
        (fun c => c.notNull && decide (upsLookup ups c.name = some none)) with
    | some c => some (.notNullViolation t.name c.name)
    | none => none

/-- The UNIQUE columns of the assignment set of an UPDATE. -/
def assignedUniqueCols (t : Table) (ups : List (String × Option Value)) :
    List Column :=
  t.schema.columns.filter
    (fun c => (c.unique || c.primaryKey) && (upsLookup ups c.name).isSome)

/-- Unique check of an UPDATE across the proposed final state: an
updated row whose value at an assigned UNIQUE column also occurs in any
other final row — a conflict with an untouched row or a duplicate
within the update batch — is a violation (spec §4.5 Update step 3). -/
def findUpdateConflict (t : Table) (pred : Row → Bool)
    (ups : List (String × Option Value)) : Option (String × Value) :=
  let final := t.finalRows pred ups
  let pos := t.updatePositions pred
  (assignedUniqueCols t ups).findSome? (fun c =>
    pos.findSome? (fun i =>
      match rowGet (final.getD i []) c.name with
      | some v =>
        if (List.range final.length).any (fun j =>
            decide (j ≠ i) && decide (rowGet (final.getD j []) c.name = some v))
        then some (c.name, v)
        else none
      | none => none))

/-- The first constraint violation an UPDATE would raise, NOT_NULL
checks first (spec §4.5 Update steps 3–4; the spec leaves the relative
order of the two check kinds open). -/
def firstUpdateViolation (t : Table) (pred : Row → Bool)
    (ups : List (String × Option Value)) : Option ConstraintErr :=
  match updateNotNullViolation t pred ups with
  | some e => some e
  | none =>
    (findUpdateConflict t pred ups).map
      (fun cv => .uniqueViolation t.name cv.1 cv.2)

/-- Rebuild the unique index of one column from a row sequence. -/
def buildColIndex (rows : List Row) (colName : String) : UniqueIndex :=
  rows.enum.filterMap (fun p => (rowGet p.2 colName).map (fun v => (v, p.1)))

/-- Rebuild all unique indexes of a table from a row sequence
(spec §4.5 allows a full rebuild of affected indexes). -/
def rebuildIndexes (t : Table) (rows : List Row) :
    List (String × UniqueIndex) :=
  (t.schema.columns.filter (fun c => c.unique || c.primaryKey)).map
    (fun c => (c.name, buildColIndex rows c.name))

/-- Modelled from the spec: `Table.Update` (spec §4.5 Update) — collect
the selected positions, run every constraint check on the proposed
final state, and only then apply all assignments and refresh the
indexes; on any violation the table is returned unchanged with the
violation error (*no partial application*).  The Go method mutates its
receiver; the model returns the post-state alongside the outcome. -/
def Table.update (t : Table) (pred : Row → Bool)
    (ups : List (String × Option Value)) :
    Except ConstraintErr Nat × Table :=
  match firstUpdateViolation t pred ups with
  | some e => (.error e, t)
  | none =>
    let final := t.finalRows pred ups
    (.ok (t.updatePositions pred).length,
     { t with rows := final, uniqueIndexes := rebuildIndexes t final,
              dirty := true })

/-- Modelled from the spec: `Table.Delete` (spec §4.5 Delete) — remove
the selected rows, rebuild the affected unique indexes, return the
count. -/
def Table.deleteRows (t : Table) (pred : Row → Bool) : Table × Nat :=
  let kept := t.rows.filter (fun r => ¬ pred r)
  ({ t with rows := kept, uniqueIndexes := rebuildIndexes t kept,
            dirty := true },
   t.rows.length - kept.length)

/-! ## DML executors (`internal/executor`) -/

/-- The row-building loop of `executeInsert` (`insert_executor.go`):
literals only, coerced through the schema column type when the column
exists. -/
def buildRowAux (table : Table) (acc : Row) :
    List (Identifier × Expr) → Except String Row
  | [] => .ok acc
  | (col, vexpr) :: rest =>
    match vexpr with
    | .literal _ v k =>
      let val? : Except String Value :=
        match findColumnInSchema table col.value with
        | some sc =>
          match convertLiteral v k sc.type with
          | .ok v2 => .ok v2
          | .error e => .error ("column " ++ col.value ++ ": " ++ e)
        | none => .ok v
      match val? with
      | .error e => .error e
      | .ok v2 => buildRowAux table (rowSet acc col.value v2) rest
    | _ => .error "only literals supported in VALUES"

/-- `executeInsert` (`insert_executor.go`). -/
def executeInsert (tableName : Identifier) (columns : List Identifier)
    (values : List Expr) (db : Database) :
    Except String (Result × Database) :=
  let tn := tableName.value
  match db.getTable tn with
  | none => .error ("table not found: " ++ tn)
  | some table =>
    if columns.length ≠ values.length then
      .error ("column count (" ++ toString columns.length
        ++ ") does not match value count (" ++ toString values.length ++ ")")
    else
      match buildRowAux table [] (columns.zip values) with
      | .error e => .error e
      | .ok row =>
        match table.insertRow row with
        | .error ce => .error ce.msg
        | .ok t2 => .ok ({ message := "INSERT 1" }, db.setTable tn t2)

/-- The assignment-building loop of `executeUpdate`
(`update_executor.go`): literals only, coerced through the schema
column type when the column exists. -/
def buildUpdatesAux (table : Table) (acc : List (String × Option Value)) :
    List (String × Expr) → Except String (List (String × Option Value))
  | [] => .ok acc
  | (colName, vexpr) :: rest =>
    match vexpr with
    | .literal _ v k =>
      match findColumnInSchema table colName with
      | some sc =>
        match convertLiteral v k sc.type with
        | .error e => .error ("column " ++ colName ++ ": " ++ e)
        | .ok v2 => buildUpdatesAux table (upsSet acc colName (some v2)) rest
      | none => buildUpdatesAux table (upsSet acc colName (some v)) rest
    | _ => .error "only literals supported in SET clause"

/-- `executeUpdate` (`update_executor.go`). -/
def executeUpdate (tableName : Identifier) (updates : List (String × Expr))
    (wc : Option Expr) (db : Database) : Except String (Result × Database) :=
  let tn := tableName.value
  match db.getTable tn with
  | none => .error ("table not found: " ++ tn)
  | some table =>
    match buildUpdatesAux table [] updates with
    | .error e => .error e
    | .ok ups =>
      let pred? : Except String (Row → Bool) :=
        match wc with
        | some w => predBuild w
        | none => .ok (fun _ => true)
      match pred? with
      | .error e => .error e
      | .ok pred =>
        match table.update pred ups with
        | (.error ce, _) => .error ce.msg
        | (.ok n, t2) =>
          .ok ({ message := "UPDATE " ++ toString n, rowsAffected := n },
               db.setTable tn t2)

/-- `executeDelete` (`delete_executor.go`). -/
def executeDelete (tableName : Identifier) (wc : Option Expr)
    (db : Database) : Except String (Result × Database) :=
  let tn := tableName.value
  match db.getTable tn with
  | none => .error ("table not found: " ++ tn)
  | some table =>
    let pred? : Except String (Row → Bool) :=
      match wc with
      | some w => predBuild w
      | none => .ok (fun _ => true)
    match pred? with
    | .error e => .error e
    | .ok pred =>
      let dn := table.deleteRows pred
      .ok ({ message := "DELETE " ++ toString dn.2, rowsAffected := dn.2 },
           db.setTable tn dn.1)

/-- `executor.Execute` (`executor.go`): dispatch on the statement
variant.  SELECT leaves the database unchanged. -/
def executorExecute (stmt : Statement) (db : Database) :
    Except String (Result × Database) :=
  match stmt with
  | .select fields tn joins wc =>
    (executeSelect fields tn joins wc db).map (fun r => (r, db))
  | .insert tn cols vals => executeInsert tn cols vals db
  | .update tn ups wc => executeUpdate tn ups wc db
  | .delete tn wc => executeDelete tn wc db
  | _ => .error "unsupported statement type"

/-! ## Storage (`internal/storage`) -/

/-- A file system snapshot: the existing directory paths and the files
with their contents.  Manifest bodies are recorded as the database
name only — the JSON byte layout is irrelevant to every claim. -/
structure FS where
  dirs : List String := []
  files : List (String × String) := []
  deriving DecidableEq, Repr

/-- `filepath.Join` on two components. -/
def pathJoin (a b : String) : String := a ++ "/" ++ b

/-- `os.Stat` existence check. -/
def FS.pathExists (fs : FS) (p : String) : Bool :=
  fs.dirs.contains p || fs.files.any (fun f => f.1 = p)

/-- `os.ReadFile`: content of a file when present. -/
def FS.fileContent (fs : FS) (p : String) : Option String :=
  (fs.files.find? (fun f => f.1 = p)).map (fun f => f.2)

/-- `os.WriteFile`: create or overwrite a file. -/
def FS.setFile (fs : FS) (p content : String) : FS :=
  if fs.files.any (fun f => f.1 = p) then
    { fs with files := fs.files.map (fun f => if f.1 = p then (p, content) else f) }
  else { fs with files := fs.files ++ [(p, content)] }

/-- `JSONEngine.CreateDatabase` (`json_engine.go`): fail when the
database path already exists on disk — before creating anything —
otherwise create the directory and write the manifest.  (`MkdirAll`
creation of missing parents and the JSON body are not modelled;
the manifest content is recorded as the database name.) -/
def JSONEngine.createDatabase (fs : FS) (name basePath : String) :
    Except String Unit × FS :=
  let dbPath := pathJoin basePath name
  if fs.pathExists dbPath then
    (.error ("database " ++ name ++ " already exists"), fs)
  else
    let fs1 : FS := { fs with dirs := fs.dirs ++ [dbPath] }
    (.ok (), fs1.setFile (pathJoin dbPath "meta.json") name)

/-- `JSONEngine.DropDatabase` (`json_engine.go`): fail when the path
does not exist, otherwise remove the directory tree. -/
def JSONEngine.dropDatabase (fs : FS) (name basePath : String) :
    Except String Unit × FS :=
  let dbPath := pathJoin basePath name
  if ¬ fs.pathExists dbPath then
    (.error ("database " ++ name ++ " does not exist"), fs)
  else
    let dirs2 := fs.dirs.filter
      (fun d => ¬ (d = dbPath ∨ (dbPath ++ "/").isPrefixOf d))
    let files2 := fs.files.filter
      (fun f => ¬ ((dbPath ++ "/").isPrefixOf f.1))
    (.ok (), { dirs := dirs2, files := files2 })

/-- `JSONEngine.RenameDatabase` (`json_engine.go`): existence checks on
both paths, then rename the tree and rewrite the manifest. -/
def JSONEngine.renameDatabase (fs : FS) (oldName newName basePath : String) :
    Except String Unit × FS :=
  let oldPath := pathJoin basePath oldName
  let newPath := pathJoin basePath newName
  if ¬ fs.pathExists oldPath then
    (.error ("database " ++ oldName ++ " does not exist"), fs)
  else if fs.pathExists newPath then
    (.error ("database " ++ newName ++ " already exists"), fs)
  else
    let ren : String → String := fun p =>
      if p = oldPath then newPath
      else if (oldPath ++ "/").isPrefixOf p then
        newPath ++ String.mk (p.data.drop oldPath.length)
      else p
    let dirs2 := fs.dirs.map ren
    let files2 := fs.files.map (fun f => (ren f.1, f.2))
    let fs1 : FS := { dirs := dirs2, files := files2 }
    match fs1.fileContent (pathJoin newPath "meta.json") with
    | none => (.error "failed to read meta.json", fs1)
    | some _ => (.ok (), fs1.setFile (pathJoin newPath "meta.json") newName)

/-- `loader.LoadDatabase` (`loader/database.go`): read the manifest at
the database path.  Table-directory enumeration and the JSON decoding
of table payloads are elided — no claim depends on the contents of a
lazily loaded database, only on whether loading succeeds. -/
def loadDatabase (fs : FS) (dbPath : String) : Except String Database :=
  match fs.fileContent (pathJoin dbPath "meta.json") with
  | none => .error "failed to read database meta"
  | some nm => .ok { name := nm, path := dbPath, tables := [] }

/-- Modelled from the spec: `writer.SaveDatabase` (spec §4.7) — write
the database manifest and one manifest per table (body layout
elided). -/
def saveDatabase (fs : FS) (db : Database) : FS :=
  db.tables.foldl
    (fun acc e => acc.setFile (pathJoin (pathJoin db.path e.1) "meta.json") e.1)
    (fs.setFile (pathJoin db.path "meta.json") db.name)

/-- `manager.Registry` (`loader/database.go`, package `manager`): the
loaded-database map and the base path (the mutex is not modelled;
execution here is sequential). -/
structure Registry where
  loaded : List (String × Database) := []
  basePath : String
  deriving DecidableEq, Repr

/-- Go map lookup `r.loaded[name]`. -/
def Registry.getDb (r : Registry) (name : String) : Option Database :=
  (r.loaded.find? (fun e => e.1 = name)).map (fun e => e.2)

/-- `Registry.Create`: refuse a loaded name, then delegate to the
storage engine (which refuses any existing path). -/
def Registry.create (r : Registry) (fs : FS) (name : String) :
    Except String Unit × FS :=
  if r.loaded.any (fun e => e.1 = name) then
    (.error ("database " ++ name ++ " already exists (loaded)"), fs)
  else JSONEngine.createDatabase fs name r.basePath

/-- Modelled from the spec: `indexing.BuildDatabaseIndexes` — rebuild
every unique index of every loaded table from its rows. -/
def buildDatabaseIndexes (db : Database) : Database :=
  let tables2 := db.tables.map
    (fun e => (e.1, { e.2 with uniqueIndexes := rebuildIndexes e.2 e.2.rows }))
  { db with tables := tables2 }

/-- `Registry.Get`: cached database, or load from disk, build indexes
and cache. -/
def Registry.get (r : Registry) (fs : FS) (name : String) :
    Except String (Database × Registry) :=
  match r.getDb name with
  | some db => .ok (db, r)
  | none =>
    match loadDatabase fs (pathJoin r.basePath name) with
    | .error e => .error e
    | .ok db =>
      let db2 := buildDatabaseIndexes db
      .ok (db2, { r with loaded := r.loaded ++ [(name, db2)] })

/-- `Registry.Drop`: evict from the map (always), then remove on
disk. -/
def Registry.drop (r : Registry) (fs : FS) (name : String) :
    Except String Unit × Registry × FS :=
  let r2 : Registry := { r with loaded := r.loaded.filter (fun e => e.1 ≠ name) }
  let res := JSONEngine.dropDatabase fs name r.basePath
  (res.1, r2, res.2)

/-- `Registry.Rename`: save and evict a loaded database, then rename
on disk. -/
def Registry.rename (r : Registry) (fs : FS) (oldName newName : String) :
    Except String Unit × Registry × FS :=
  match r.getDb oldName with
  | some db =>
    let fs1 := saveDatabase fs db
    let r2 : Registry := { r with loaded := r.loaded.filter (fun e => e.1 ≠ oldName) }
    let res := JSONEngine.renameDatabase fs1 oldName newName r.basePath
    (res.1, r2, res.2)
  | none =>
    let res := JSONEngine.renameDatabase fs oldName newName r.basePath
    (res.1, r, res.2)

/-! ## Engine glue (`internal/engine/engine.go`) -/

/-- The whole mutable state an engine session sees: the session's
current database, the shared registry and the file system.  (In Go the
current database and the registry's map entry alias one heap object;
the model keeps both in sync explicitly.) -/
structure World where
  db : Option Database
  registry : Registry
  fs : FS
  deriving DecidableEq, Repr

/-- The `Engine.Execute` error for a non-DDL statement with no current
database (quote punctuation of the Go message is not reproduced). -/
def noDatabaseSelectedMsg : String :=
  "no database selected. Use USE <database_name> to select one"

/-- Go map assignment on the registry's loaded map, applied only to an
existing entry (keeping the model in sync with the Go aliasing of the
session database and the map entry). -/
def Registry.refresh (r : Registry) (name : String) (db : Database) :
    Registry :=
  let loaded2 := r.loaded.map (fun e => if e.1 = name then (name, db) else e)
  { r with loaded := loaded2 }

/-- `Engine.Execute` (`engine.go`): tokenize, parse, dispatch database
management statements to the registry, check for a selected database,
then run the statement executor.  (The `planner` package referenced by
`engine.go` is not in the provided sources; the statement-level
`executor.Execute` of `executor.go` — the lowering the source tree
contains — stands in for the plan-and-execute pair.) -/
def engineExecute (sql : String) (w : World) :
    Except String Result × World :=
  match tokenize sql with
  | .error e => (.error ("lexer error: " ++ e), w)
  | .ok ts =>
    match parse ts with
    | .error e => (.error ("parse error: " ++ e), w)
    | .ok stmt =>
      match stmt with
      | .createDatabase name =>
        let res := w.registry.create w.fs name
        match res.1 with
        | .error e => (.error e, { w with fs := res.2 })
        | .ok _ =>
          (.ok { message := "Database " ++ name ++ " created" },
           { w with fs := res.2 })
      | .dropDatabase name =>
        let db1 : Option Database :=
          match w.db with
          | some d => if d.name = name then none else some d
          | none => none
        let res := Registry.drop w.registry w.fs name
        let w2 : World := { db := db1, registry := res.2.1, fs := res.2.2 }
        match res.1 with
        | .error e => (.error e, w2)
        | .ok _ => (.ok { message := "Database " ++ name ++ " dropped" }, w2)
      | .alterDatabase name newName =>
        let db1 : Option Database :=
          match w.db with
          | some d => if d.name = name then none else some d
          | none => none
        let res := Registry.rename w.registry w.fs name newName
        let w2 : World := { db := db1, registry := res.2.1, fs := res.2.2 }
        match res.1 with
        | .error e => (.error e, w2)
        | .ok _ =>
          (.ok { message := "Database renamed from " ++ name ++ " to " ++ newName },
           w2)
      | .useDatabase name =>
        match Registry.get w.registry w.fs name with
        | .error e =>
          (.error ("failed to load database " ++ name ++ ": " ++ e), w)
        | .ok dbr =>
          (.ok { message := "Switched to database " ++ name },
           { w with db := some dbr.1, registry := dbr.2 })
      | _ =>
        match w.db with
        | none => (.error noDatabaseSelectedMsg, w)
        | some d =>
          match executorExecute stmt d with
          | .error e => (.error ("execution error: " ++ e), w)
          | .ok rd =>
            (.ok rd.1,
             { w with db := some rd.2,
                      registry := w.registry.refresh rd.2.name rd.2 })

/-! ## Concrete fixtures used by witnesses and counterexamples -/

/-- An unqualified identifier AST node. -/
def identOf (s : String) : Identifier := ⟨s, s, ""⟩

/-- The `*` field-list entry. -/
def starId : Identifier := ⟨"*", "*", ""⟩

/-- An ON condition equating two qualified columns. -/
def onEq (lt lc rt rc : String) : Expr :=
  .binary (.ident ⟨lt ++ "." ++ lc, lc, lt⟩) "="
    (.ident ⟨rt ++ "." ++ rc, rc, rt⟩)

/-- The `users` table of the spec §8 scenarios. -/
def usersTable : Table :=
  { name := "users",
    schema := { tableName := "users", columns :=
      [{ name := "id", type := .int, primaryKey := true, unique := true,
         notNull := true, autoIncrement := true },
       { name := "name", type := .text, unique := true, notNull := true },
       { name := "active", type := .bool }] },
    rows := [[("id", .vint 1), ("name", .vstr "alice"), ("active", .vbool true)],
             [("id", .vint 2), ("name", .vstr "bob"), ("active", .vbool false)]],
    uniqueIndexes := [("id", [(.vint 1, 0), (.vint 2, 1)]),
                      ("name", [(.vstr "alice", 0), (.vstr "bob", 1)])],
    lastInsertId := 2 }

/-- The `orders` table of the spec §8 scenarios. -/
def ordersTable : Table :=
  { name := "orders",
    schema := { tableName := "orders", columns :=
      [{ name := "id", type := .int, primaryKey := true, unique := true,
         notNull := true, autoIncrement := true },
       { name := "user_id", type := .int, notNull := true },
       { name := "amount", type := .float }] },
    rows := [[("id", .vint 10), ("user_id", .vint 1), ("amount", .vfloat (19 / 2))],
             [("id", .vint 11), ("user_id", .vint 1), ("amount", .vfloat (17 / 4))],
             [("id", .vint 12), ("user_id", .vint 2), ("amount", .vfloat 1)]],
    uniqueIndexes := [("id", [(.vint 10, 0), (.vint 11, 1), (.vint 12, 2)])],
    lastInsertId := 12 }

/-- The sample database `d` of the spec §8 scenarios. -/
def sampleDb : Database :=
  { name := "d", path := "databases/d",
    tables := [("users", usersTable), ("orders", ordersTable)] }

/-- A world with database `d` selected and present on disk. -/
def sampleWorld : World :=
  { db := some sampleDb,
    registry := { basePath := "databases", loaded := [("d", sampleDb)] },
    fs := { dirs := ["databases", "databases/d"],
            files := [("databases/d/meta.json", "d")] } }

/-- A JOIN clause of `users` with `orders` on the user id. -/
def joinOrders : JoinClause :=
  ⟨"INNER", identOf "orders", onEq "users" "id" "orders" "user_id"⟩

/-- A second JOIN clause, joining `users` again. -/
def joinUsersAgain : JoinClause :=
  ⟨"INNER", identOf "users", onEq "orders" "user_id" "users" "id"⟩

/-! ## Claim C1 — multi-way joins -/

/-- C1 counterexample: executing a SELECT with two JOIN clauses against
the sample database returns the multiple-JOINs error instead of a
left-deep joined result, refuting the claim that such statements
execute as a left-deep join tree. -/
theorem select_two_joins_errors_counterexample :
    executeSelect [starId] (identOf "users") [joinOrders, joinUsersAgain]
        none sampleDb =
      .error "multiple JOINs not yet supported (found 2)" := by
  rfl

/-- C1 (amended): for every SELECT statement with two or more JOIN
clauses, execution fails with the `multiple JOINs not yet supported`
error naming the JOIN count — `executeJoinSelect` rejects any JOIN
count other than exactly one, so no left-deep join tree is built. -/
theorem select_multi_join_rejected (fields : List Identifier) (tn : Identifier)
    (joins : List JoinClause) (wc : Option Expr) (db : Database)
    (h : 2 ≤ joins.length) :
    executeSelect fields tn joins wc db =
      .error ("multiple JOINs not yet supported (found "
        ++ toString joins.length ++ ")") := by
  match joins, h with
  | j1 :: j2 :: rest, _ =>
    simp [executeSelect, executeJoinSelect]

/-- Witness for `select_multi_join_rejected` at a concrete two-JOIN
statement over the sample database. -/
theorem select_multi_join_rejected_witness :
    executeSelect [starId] (identOf "users") [joinOrders, joinUsersAgain] none
        sampleDb =
      .error ("multiple JOINs not yet supported (found "
        ++ toString ([joinOrders, joinUsersAgain] : List JoinClause).length
        ++ ")") :=
  select_multi_join_rejected _ _ _ _ _ (by decide)

/-! ## Claim C3 — print/reparse round trip -/

/-- The SQL text `SELECT * FROM t WHERE name = ALICE` with `ALICE` a
single-quoted string literal. -/
def c3Input : String := "SELECT * FROM t WHERE name = " ++ sqStr ++ "alice" ++ sqStr

/-- The AST the parser produces for `c3Input`: the WHERE right-hand
side is a string literal. -/
def c3First : Statement :=
  .select [starId] (identOf "t") []
    (some (.binary (.ident (identOf "name")) "="
      (.literal "alice" (.vstr "alice") .string)))

/-- The AST produced by reparsing the printed form of `c3First`: the
quotes were lost in printing, so the right-hand side reparses as an
identifier. -/
def c3Second : Statement :=
  .select [starId] (identOf "t") []
    (some (.binary (.ident (identOf "name")) "=" (.ident (identOf "alice"))))

/-- C3: the lex–parse–print–reparse round trip fails on a statement
with a string literal in its WHERE clause.  `Literal.String()` returns
the raw token text, which for a plain string literal carries no quotes,
so the printed statement reparses with an identifier in place of the
literal and the two ASTs differ. -/
theorem string_literal_print_reparse_differs :
    parseSQL c3Input = .ok c3First ∧
    c3First.str = "SELECT * FROM t WHERE (name = alice)" ∧
    parseSQL c3First.str = .ok c3Second ∧ c3First ≠ c3Second :=
  ⟨by rfl, by rfl, by rfl, by decide⟩

/-! ## Claim C4 — INSERT column list -/

/-- C4 counterexample: `INSERT INTO t VALUES (1)` — with no
parenthesized column list — parses successfully (with an empty column
list) instead of failing with a parse error. -/
theorem insert_without_columns_parses_counterexample :
    parseSQL "INSERT INTO t VALUES (1)" =
      .ok (.insert (identOf "t") [] [.literal "1" (.vint 1) .int]) := by
  rfl

/-- C4 (amended): the column list of an INSERT statement is optional —
for every `INSERT INTO t VALUES ( … )` token sequence whose value list
parses, `parseInsert` succeeds with an empty column list rather than
reporting a parse error. -/
theorem parseInsert_accepts_missing_column_list (fuel : Nat) (tname : String)
    (restToks rest2 : List Token) (vals : List Expr)
    (hv : parseExpressionList fuel (⟨.PAREN_OPEN, "("⟩ :: restToks) =
      .ok (vals, rest2)) :
    parseInsert fuel
        ([⟨.INSERT, "INSERT"⟩, ⟨.INTO, "INTO"⟩, ⟨.IDENTIFIER, tname⟩,
          ⟨.VALUES, "VALUES"⟩, ⟨.PAREN_OPEN, "("⟩] ++ restToks) =
      .ok (.insert (identOf tname) [] vals,
           if (curT rest2).type = .SEMICOLON then rest2.tail else rest2) := by
  simp [parseInsert, curT, identOf, hv]

/-- Witness for `parseInsert_accepts_missing_column_list` on the token
sequence of `INSERT INTO t VALUES (1)`. -/
theorem parseInsert_missing_column_list_witness :
    parseInsert 20
        ([⟨.INSERT, "INSERT"⟩, ⟨.INTO, "INTO"⟩, ⟨.IDENTIFIER, "t"⟩,
          ⟨.VALUES, "VALUES"⟩, ⟨.PAREN_OPEN, "("⟩] ++
          [⟨.NUMBER, "1"⟩, ⟨.PAREN_CLOSE, ")"⟩]) =
      .ok (.insert (identOf "t") [] [.literal "1" (.vint 1) .int],
           if (curT ([] : List Token)).type = .SEMICOLON then
             ([] : List Token).tail else ([] : List Token)) :=
  parseInsert_accepts_missing_column_list 20 "t" _ _ _ (by rfl)

/-! ## Claim C6 — SELECT * column order -/

/-- C6: for a `SELECT *`, over a single-table scan the result's column
list is the schema's declared column order, and over a join it is the
left table's qualified columns followed by the right table's, each in
schema order (in particular, not alphabetically sorted). -/
theorem select_star_columns_schema_order (f tn : Identifier)
    (wc : Option Expr) (db : Database) (res : Result)
    (hstar : f.value = "*") :
    ((executeSelect [f] tn [] wc db = .ok res) →
      ∃ table, db.getTable tn.value = some table ∧
        res.columns = table.schema.columns.map (fun c => c.name)) ∧
    (∀ j : JoinClause, executeSelect [f] tn [j] wc db = .ok res →
      ∃ lt rt, db.getTable tn.value = some lt ∧
        db.getTable j.rightTable.value = some rt ∧
        res.columns =
          lt.schema.columns.map (fun c => tn.value ++ "." ++ c.name)
          ++ rt.schema.columns.map
              (fun c => j.rightTable.value ++ "." ++ c.name)) := by
  constructor
  · intro hj
    unfold executeSelect at hj
    rw [if_neg (by simp)] at hj
    simp only [] at hj
    repeat' split at hj
    all_goals try (simp at hj)
    all_goals first
      | (subst hj; refine ⟨_, ?_, rfl⟩ <;> assumption)
      | simp_all
  · intro j hj
    unfold executeSelect at hj
    rw [if_pos (by simp)] at hj
    unfold executeJoinSelect at hj
    split at hj
    case h_2 => exact absurd rfl (by rename_i hne; exact hne j)
    case h_1 =>
      rename_i joinClause heq
      injection heq with h1 h2
      subst h1
      simp only [] at hj
      repeat' split at hj
      all_goals try (simp at hj)
      all_goals first
        | (subst hj; refine ⟨_, _, ?_, ?_, rfl⟩ <;> assumption)
        | simp_all

/-- The result of the concrete `SELECT *` join of the C6 witness. -/
def c6JoinRes : Result :=
  match executeSelect [starId] (identOf "users") [joinOrders] none sampleDb with
  | .ok r => r
  | .error _ => {}

/-- Witness for `select_star_columns_schema_order` on
`SELECT * FROM users INNER JOIN orders ON users.id = orders.user_id`
over the sample database. -/
theorem select_star_columns_schema_order_witness :
    ∃ lt rt, sampleDb.getTable (identOf "users").value = some lt ∧
      sampleDb.getTable joinOrders.rightTable.value = some rt ∧
      c6JoinRes.columns =
        lt.schema.columns.map
          (fun c => (identOf "users").value ++ "." ++ c.name)
        ++ rt.schema.columns.map
            (fun c => joinOrders.rightTable.value ++ "." ++ c.name) :=
  (select_star_columns_schema_order starId (identOf "users") none sampleDb
    c6JoinRes rfl).2 joinOrders (by rfl)

/-! ## Claim C7 — no database selected -/

/-- Is a statement one of the four data statements (SELECT, INSERT,
UPDATE, DELETE) that require a selected database? -/
def Statement.isDML : Statement → Bool
  | .select _ _ _ _ => true
  | .insert _ _ _ => true
  | .update _ _ _ => true
  | .delete _ _ => true
  | _ => false

/-- C7: with no current database, executing any statement that lexes
and parses to a SELECT, INSERT, UPDATE or DELETE fails with the
no-database-selected error, and the whole world — session, registry
and file system — is exactly as before: the check precedes all
planning and execution. -/
theorem no_database_selected_fails_fast (sql : String) (w : World)
    (ts : List Token) (stmt : Statement)
    (h0 : w.db = none) (h1 : tokenize sql = .ok ts)
    (h2 : parse ts = .ok stmt) (h3 : stmt.isDML = true) :
    engineExecute sql w = (.error noDatabaseSelectedMsg, w) := by
  unfold engineExecute
  simp only [h1, h2]
  cases stmt <;> simp [Statement.isDML] at h3 <;> simp [h0]

/-- Witness for `no_database_selected_fails_fast` on
`SELECT * FROM users` in a session with no database selected. -/
theorem no_database_selected_fails_fast_witness :
    engineExecute "SELECT * FROM users" { sampleWorld with db := none } =
      (.error noDatabaseSelectedMsg, { sampleWorld with db := none }) :=
  no_database_selected_fails_fast _ _
    [⟨.SELECT, "SELECT"⟩, ⟨.ASTERISK, "*"⟩, ⟨.FROM, "FROM"⟩,
     ⟨.IDENTIFIER, "users"⟩]
    (.select [starId] (identOf "users") [] none)
    (by rfl) (by rfl) (by rfl) (by rfl)

/-! ## Claim C8 — CREATE DATABASE leaves the session unchanged -/

/-- C8: executing a CREATE DATABASE statement leaves the session's
current-database reference identical to its prior value, for every
prior world — in particular the newly created database is not
selected.  (This holds whether or not creation succeeds; the claim's
successful case is an instance.) -/
theorem create_database_preserves_current (sql : String) (w : World)
    (ts : List Token) (name : String)
    (h1 : tokenize sql = .ok ts) (h2 : parse ts = .ok (.createDatabase name)) :
    (engineExecute sql w).2.db = w.db := by
  unfold engineExecute
  simp only [h1, h2]
  split <;> rfl

/-- Witness for `create_database_preserves_current` on
`CREATE DATABASE newdb` (a successful creation) in the sample world. -/
theorem create_database_preserves_current_witness :
    (engineExecute "CREATE DATABASE newdb" sampleWorld).2.db = sampleWorld.db :=
  create_database_preserves_current _ _
    [⟨.CREATE, "CREATE"⟩, ⟨.DATABASE, "DATABASE"⟩, ⟨.IDENTIFIER, "newdb"⟩]
    "newdb" (by rfl) (by rfl)

/-! ## Claim C10 — Registry.Create against an existing directory -/

/-- C10: `Registry.Create` fails whenever a directory of the database's
name already exists under the base path — whether or not that database
is in the registry's loaded map — and in the failure case the file
system is returned exactly unchanged: the storage engine checks the
path before creating anything. -/
theorem registry_create_fails_when_dir_exists (r : Registry) (fs : FS)
    (name : String) (h : pathJoin r.basePath name ∈ fs.dirs) :
    (∃ msg, (Registry.create r fs name).1 = .error msg) ∧
      (Registry.create r fs name).2 = fs := by
  have hex : fs.pathExists (pathJoin r.basePath name) = true := by
    simp [FS.pathExists]
    exact Or.inl h
  unfold Registry.create JSONEngine.createDatabase
  by_cases hl : r.loaded.any (fun e => e.1 = name) <;> simp [hl, hex]

/-- Witness for `registry_create_fails_when_dir_exists`: creating `d`
while `databases/d` exists on disk fails and leaves the file system
unchanged. -/
theorem registry_create_fails_when_dir_exists_witness :
    (∃ msg, (Registry.create sampleWorld.registry sampleWorld.fs "d").1 =
      .error msg) ∧
      (Registry.create sampleWorld.registry sampleWorld.fs "d").2 =
        sampleWorld.fs :=
  registry_create_fails_when_dir_exists _ _ _ (by decide)

/-! ## Claim C9 — identifier case folding -/


/-- `Char.ofNat` round-trips through `toNat` on the ASCII range. -/
theorem toNat_ofNat_le {n : Nat} (h1 : n ≤ 122) : (Char.ofNat n).toNat = n := by
  unfold Char.ofNat
  split
  · rfl
  · rename_i h
    exact absurd (Or.inl (by omega)) h

/-- Lower-casing changes an upper-case ASCII character. -/
theorem asciiToLower_ne_of_upper {c : Char} (h : isUpperAscii c = true) :
    asciiToLower c ≠ c := by
  intro heq
  have h2 : (65 ≤ c.toNat ∧ c.toNat ≤ 90) := by
    simpa [isUpperAscii] using h
  have h3 : (asciiToLower c).toNat = c.toNat + 32 := by
    simp only [asciiToLower, h]
    exact toNat_ofNat_le (by omega)
  rw [heq] at h3
  omega

/-- A map that leaves a list unchanged fixes each element. -/
theorem map_eq_self_mem {α : Type} {f : α → α} :
    ∀ (l : List α), l.map f = l → ∀ x ∈ l, f x = x := by
  intro l
  induction l with
  | nil => intro _ x hx; cases hx
  | cons a l ih =>
    intro h x hx
    have h1 := List.cons.inj h
    cases hx with
    | head => exact h1.1
    | tail _ hx2 => exact ih h1.2 x hx2

/-- A string containing an upper-case ASCII letter is changed by
`strToLower`. -/
theorem lower_ne_of_hasUpper (s : String) (h : s.data.any isUpperAscii = true) :
    strToLower s ≠ s := by
  intro heq
  obtain ⟨c, hc, hcu⟩ := List.any_eq_true.mp h
  have hdata : s.data.map asciiToLower = s.data := by
    have := congrArg String.data heq
    simpa [strToLower] using this
  exact asciiToLower_ne_of_upper hcu (map_eq_self_mem s.data hdata c hc)

/-- C9: `parseQualifiedIdentifier` — the identifier parser used for
SELECT field lists and INSERT column lists — folds both the table
qualifier and the column name to lower case, while `parseAtom` — the
identifier parser used inside WHERE expressions — keeps the original
spelling; hence for any identifier token containing an upper-case
letter the two produced `Identifier.Value`s differ. -/
theorem field_list_lowercased_where_preserved (s t : String)
    (ts ts2 ts3 ts4 : List Token)
    (hup : s.data.any isUpperAscii = true)
    (h1 : (curT ts).type ≠ .DOT) (h2 : (curT ts2).type ≠ .DOT) :
    parseQualifiedIdentifier (⟨.IDENTIFIER, s⟩ :: ts) =
      .ok (⟨strToLower s, strToLower s, ""⟩, ts) ∧
    parseQualifiedIdentifier
        (⟨.IDENTIFIER, t⟩ :: ⟨.DOT, "."⟩ :: ⟨.IDENTIFIER, s⟩ :: ts3) =
      .ok (⟨strToLower t ++ "." ++ strToLower s, strToLower s, strToLower t⟩,
           ts3) ∧
    parseAtom (⟨.IDENTIFIER, s⟩ :: ts2) = .ok (.ident ⟨s, s, ""⟩, ts2) ∧
    parseAtom (⟨.IDENTIFIER, t⟩ :: ⟨.DOT, "."⟩ :: ⟨.IDENTIFIER, s⟩ :: ts4) =
      .ok (.ident ⟨t ++ "." ++ s, s, t⟩, ts4) ∧
    strToLower s ≠ s := by
  simp only [curT, List.headD_eq_head?_getD] at h1 h2
  refine ⟨?_, ?_, ?_, ?_, lower_ne_of_hasUpper s hup⟩
  · simp [parseQualifiedIdentifier, curT, isIdentifierOrKeyword]
    intro hDot
    exact absurd hDot h1
  · simp [parseQualifiedIdentifier, curT, isIdentifierOrKeyword]
  · simp [parseAtom, curT]
    intro hDot
    exact absurd hDot h2
  · simp [parseAtom, curT]

/-- Witness for `field_list_lowercased_where_preserved` at the column
name `Name` and qualifier `Users`. -/
theorem field_list_lowercased_where_preserved_witness :
    parseQualifiedIdentifier [⟨.IDENTIFIER, "Name"⟩] =
      .ok (⟨strToLower "Name", strToLower "Name", ""⟩, []) ∧
    parseQualifiedIdentifier
        [⟨.IDENTIFIER, "Users"⟩, ⟨.DOT, "."⟩, ⟨.IDENTIFIER, "Name"⟩] =
      .ok (⟨strToLower "Users" ++ "." ++ strToLower "Name", strToLower "Name",
            strToLower "Users"⟩, []) ∧
    parseAtom [⟨.IDENTIFIER, "Name"⟩] = .ok (.ident ⟨"Name", "Name", ""⟩, []) ∧
    parseAtom [⟨.IDENTIFIER, "Users"⟩, ⟨.DOT, "."⟩, ⟨.IDENTIFIER, "Name"⟩] =
      .ok (.ident ⟨"Users" ++ "." ++ "Name", "Name", "Users"⟩, []) ∧
    strToLower "Name" ≠ "Name" :=
  field_list_lowercased_where_preserved "Name" "Users" [] [] [] []
    (by rfl) (by decide) (by decide)

/-! ## Claim C5 — expression precedence -/

/-- Is an expression an atom (identifier or literal)? -/
def isAtomExpr : Expr → Bool
  | .ident _ => true
  | .literal _ _ _ => true
  | _ => false

/-- Comparison-level shape: an atom, or a comparison of two atoms —
no logical node. -/
def compShape : Expr → Bool
  | .ident _ => true
  | .literal _ _ _ => true
  | .binary l _ r => isAtomExpr l && isAtomExpr r
  | .logical _ _ _ => false

/-- AND-level shape: a left-associative chain of AND nodes over
comparison-level expressions (a bare comparison is a chain of one). -/
def andShape : Expr → Bool
  | .logical l op r => decide (strToUpper op = "AND") && andShape l && compShape r
  | e => compShape e

/-- OR-level shape: a left-associative chain of OR nodes over AND-level
expressions.  This is exactly the claimed precedence discipline: OR
nodes above AND nodes above comparisons, same-precedence operators
associated to the left. -/
def orShape : Expr → Bool
  | .logical l op r =>
    if strToUpper op = "OR" then orShape l && andShape r
    else decide (strToUpper op = "AND") && andShape l && compShape r
  | e => compShape e

/-- A token sequence without parentheses (the claim's scope). -/
def noParens (ts : List Token) : Prop :=
  ∀ t ∈ ts, t.type ≠ TokenType.PAREN_OPEN

/-- Lexer well-formedness of AND/OR tokens: their literals case-fold to
the keyword (guaranteed by `lookupIdent` for lexer output). -/
def wfLogicalLits (ts : List Token) : Prop :=
  ∀ t ∈ ts, (t.type = TokenType.AND → strToUpper t.literal = "AND") ∧
            (t.type = TokenType.OR → strToUpper t.literal = "OR")

/-- `noParens` transfers to suffixes. -/
theorem noParens_suffix {ts ts' : List Token} (h : noParens ts)
    (hs : ts' <:+ ts) : noParens ts' :=
  fun t ht => h t (hs.subset ht)

/-- `wfLogicalLits` transfers to suffixes. -/
theorem wfLogicalLits_suffix {ts ts' : List Token} (h : wfLogicalLits ts)
    (hs : ts' <:+ ts) : wfLogicalLits ts' :=
  fun t ht => h t (hs.subset ht)

/-- The current token of a non-empty state is in the token list. -/
theorem curT_mem {ts : List Token} (h : ts ≠ []) : curT ts ∈ ts := by
  cases ts with
  | nil => exact absurd rfl h
  | cons a l => simp [curT]

/-- A state whose current token is not EOF is non-empty. -/
theorem ne_nil_of_curT {ts : List Token} {k : TokenType}
    (h : (curT ts).type = k) (hk : k ≠ TokenType.EOF) : ts ≠ [] := by
  intro he
  subst he
  simp [curT, eofToken] at h
  exact hk h.symm

/-- Atoms are comparison-level. -/
theorem compShape_of_atom {e : Expr} (h : isAtomExpr e = true) :
    compShape e = true := by
  cases e <;> simp_all [isAtomExpr, compShape]

/-- Comparison-level expressions are AND-level. -/
theorem andShape_of_comp {e : Expr} (h : compShape e = true) :
    andShape e = true := by
  cases e <;> simp_all [compShape, andShape]

/-- AND-level expressions are OR-level. -/
theorem orShape_of_and {e : Expr} (h : andShape e = true) :
    orShape e = true := by
  cases e with
  | logical l op r =>
    have hop : decide (strToUpper op = "AND") = true := by
      simp [andShape] at h
      simp [h.1]
    have : strToUpper op ≠ "OR" := by
      intro hc
      rw [hc] at hop
      simp at hop
    simp [orShape, this]
    simpa [andShape] using h
  | ident i => simpa [orShape, andShape] using h
  | literal a b c => simpa [orShape, andShape] using h
  | binary l op r => simpa [orShape, andShape] using h

/-- `parseAtom` produces an atom and consumes a prefix of its input. -/
theorem parseAtom_ok {ts ts' : List Token} {e : Expr}
    (h : parseAtom ts = .ok (e, ts')) : isAtomExpr e = true ∧ ts' <:+ ts := by
  unfold parseAtom at h
  simp only [] at h
  repeat' split at h
  all_goals try (simp at h)
  all_goals obtain ⟨he, hts⟩ := h
  all_goals subst he
  all_goals subst hts
  all_goals constructor
  all_goals try rfl
  all_goals first
    | exact List.tail_suffix ts
    | exact (List.tail_suffix _).trans (List.tail_suffix ts)
    | exact ((List.tail_suffix _).trans (List.tail_suffix _)).trans
        (List.tail_suffix ts)


/-- On parenthesis-free input, `parseComparisonExpression` produces a
comparison-level expression and consumes a prefix. -/
theorem parseComp_ok (fuel : Nat) {ts ts' : List Token} {e : Expr}
    (hp : noParens ts) (h : parseComparisonExpression fuel ts = .ok (e, ts')) :
    compShape e = true ∧ ts' <:+ ts := by
  match fuel with
  | 0 => simp [parseComparisonExpression] at h
  | f + 1 =>
    unfold parseComparisonExpression at h
    split at h
    · rename_i hpo
      exact absurd hpo (hp _ (curT_mem (ne_nil_of_curT hpo (by simp))))
    · cases ha : parseAtom ts with
      | error err => rw [ha] at h; simp at h
      | ok p =>
        obtain ⟨left, ts1⟩ := p
        rw [ha] at h
        simp only [] at h
        obtain ⟨hl, hs1⟩ := parseAtom_ok ha
        by_cases hc : isComparisonOperator (curT ts1).type = true
        · rw [if_pos hc] at h
          cases hb : parseAtom ts1.tail with
          | error err => rw [hb] at h; simp at h
          | ok q =>
            obtain ⟨right, ts2⟩ := q
            rw [hb] at h
            simp only [] at h
            simp at h
            obtain ⟨he, hts⟩ := h
            subst he; subst hts
            obtain ⟨hr, hs2⟩ := parseAtom_ok hb
            refine ⟨by simp [compShape, hl, hr], ?_⟩
            exact (hs2.trans (List.tail_suffix ts1)).trans hs1
        · rw [if_neg hc] at h
          simp at h
          obtain ⟨he, hts⟩ := h
          subst he; subst hts
          exact ⟨compShape_of_atom hl, hs1⟩

/-- The AND loop preserves AND-level shape on parenthesis-free,
well-formed input. -/
theorem andLoop_ok (fuel : Nat) : ∀ {left e : Expr} {ts ts' : List Token},
    noParens ts → wfLogicalLits ts → andShape left = true →
    andLoop fuel left ts = .ok (e, ts') →
    andShape e = true ∧ ts' <:+ ts := by
  induction fuel with
  | zero => intro l e ts ts' _ _ _ h; simp [andLoop] at h
  | succ f ih =>
    intro left e ts ts' hp hw hl h
    unfold andLoop at h
    split at h
    · rename_i hAnd
      have hne : ts ≠ [] := ne_nil_of_curT hAnd (by simp)
      have hlit : strToUpper (curT ts).literal = "AND" :=
        (hw _ (curT_mem hne)).1 hAnd
      cases hc : parseComparisonExpression f ts.tail with
      | error err => rw [hc] at h; simp at h
      | ok p =>
        obtain ⟨right, ts1⟩ := p
        rw [hc] at h
        simp only [] at h
        obtain ⟨hr, hs1⟩ :=
          parseComp_ok f (noParens_suffix hp (List.tail_suffix ts)) hc
        have hstep : andShape (.logical left (curT ts).literal right) = true := by
          simp [andShape, hlit, hl, hr]
        have hsuf : ts1 <:+ ts := hs1.trans (List.tail_suffix ts)
        obtain ⟨he, hs2⟩ := ih (noParens_suffix hp hsuf)
          (wfLogicalLits_suffix hw hsuf) hstep h
        exact ⟨he, hs2.trans hsuf⟩
    · simp at h
      obtain ⟨he, hts⟩ := h
      subst he; subst hts
      exact ⟨hl, List.suffix_refl _⟩

/-- On parenthesis-free input, `parseAndExpression` produces an
AND-level expression. -/
theorem parseAnd_ok (fuel : Nat) {ts ts' : List Token} {e : Expr}
    (hp : noParens ts) (hw : wfLogicalLits ts)
    (h : parseAndExpression fuel ts = .ok (e, ts')) :
    andShape e = true ∧ ts' <:+ ts := by
  match fuel with
  | 0 => simp [parseAndExpression] at h
  | f + 1 =>
    unfold parseAndExpression at h
    cases hc : parseComparisonExpression f ts with
    | error err => rw [hc] at h; simp at h
    | ok p =>
      obtain ⟨left, ts1⟩ := p
      rw [hc] at h
      simp only [] at h
      obtain ⟨hl, hs1⟩ := parseComp_ok f hp hc
      obtain ⟨he, hs2⟩ := andLoop_ok f (noParens_suffix hp hs1)
        (wfLogicalLits_suffix hw hs1) (andShape_of_comp hl) h
      exact ⟨he, hs2.trans hs1⟩

/-- The OR loop preserves OR-level shape on parenthesis-free,
well-formed input. -/
theorem orLoop_ok (fuel : Nat) : ∀ {left e : Expr} {ts ts' : List Token},
    noParens ts → wfLogicalLits ts → orShape left = true →
    orLoop fuel left ts = .ok (e, ts') →
    orShape e = true ∧ ts' <:+ ts := by
  induction fuel with
  | zero => intro l e ts ts' _ _ _ h; simp [orLoop] at h
  | succ f ih =>
    intro left e ts ts' hp hw hl h
    unfold orLoop at h
    split at h
    · rename_i hOr
      have hne : ts ≠ [] := ne_nil_of_curT hOr (by simp)
      have hlit : strToUpper (curT ts).literal = "OR" :=
        (hw _ (curT_mem hne)).2 hOr
      cases hc : parseAndExpression f ts.tail with
      | error err => rw [hc] at h; simp at h
      | ok p =>
        obtain ⟨right, ts1⟩ := p
        rw [hc] at h
        simp only [] at h
        obtain ⟨hr, hs1⟩ := parseAnd_ok f
          (noParens_suffix hp (List.tail_suffix ts))
          (wfLogicalLits_suffix hw (List.tail_suffix ts)) hc
        have hstep : orShape (.logical left (curT ts).literal right) = true := by
          simp [orShape, hlit, hl, hr]
        have hsuf : ts1 <:+ ts := hs1.trans (List.tail_suffix ts)
        obtain ⟨he, hs2⟩ := ih (noParens_suffix hp hsuf)
          (wfLogicalLits_suffix hw hsuf) hstep h
        exact ⟨he, hs2.trans hsuf⟩
    · simp at h
      obtain ⟨he, hts⟩ := h
      subst he; subst hts
      exact ⟨hl, List.suffix_refl _⟩

/-- On parenthesis-free input, `parseOrExpression` produces an OR-level
expression. -/
theorem parseOr_ok (fuel : Nat) {ts ts' : List Token} {e : Expr}
    (hp : noParens ts) (hw : wfLogicalLits ts)
    (h : parseOrExpression fuel ts = .ok (e, ts')) :
    orShape e = true ∧ ts' <:+ ts := by
  match fuel with
  | 0 => simp [parseOrExpression] at h
  | f + 1 =>
    unfold parseOrExpression at h
    cases hc : parseAndExpression f ts with
    | error err => rw [hc] at h; simp at h
    | ok p =>
      obtain ⟨left, ts1⟩ := p
      rw [hc] at h
      simp only [] at h
      obtain ⟨hl, hs1⟩ := parseAnd_ok f hp hw hc
      obtain ⟨he, hs2⟩ := orLoop_ok f (noParens_suffix hp hs1)
        (wfLogicalLits_suffix hw hs1) (orShape_of_and hl) h
      exact ⟨he, hs2.trans hs1⟩


/-- A WHERE expression whose parentheses override the default
nesting. -/
def c5ParenInput : String := "SELECT a FROM t WHERE x = 1 AND (y = 2 OR z = 3)"

/-- The AST of the parenthesized input: the OR node sits below the AND
node, overriding the default precedence nesting. -/
def c5ParenWhere : Expr :=
  .logical (.binary (.ident (identOf "x")) "=" (.literal "1" (.vint 1) .int))
    "AND"
    (.logical (.binary (.ident (identOf "y")) "=" (.literal "2" (.vint 2) .int))
      "OR"
      (.binary (.ident (identOf "z")) "=" (.literal "3" (.vint 3) .int)))

/-- C5: for every parenthesis-free WHERE token sequence the parser
accepts, the resulting AST satisfies the precedence discipline
OR < AND < comparison with left associativity (`orShape`), and
parentheses override this nesting (witnessed by the parse of
`c5ParenInput`, whose OR sits below its AND). -/
theorem where_precedence_or_and_comparison (fuel : Nat)
    (ts rest : List Token) (e : Expr)
    (hp : noParens ts) (hw : wfLogicalLits ts)
    (h : parseExpression fuel ts = .ok (e, rest)) :
    orShape e = true ∧
      parseSQL c5ParenInput =
        .ok (.select [identOf "a"] (identOf "t") [] (some c5ParenWhere)) :=
  ⟨(parseOr_ok fuel hp hw h).1, by rfl⟩

/-- Tokens of the parenthesis-free expression
`x = 1 AND y = 2 OR z = 3`. -/
def c5Toks : List Token :=
  [⟨.IDENTIFIER, "x"⟩, ⟨.EQUALS, "="⟩, ⟨.NUMBER, "1"⟩, ⟨.AND, "AND"⟩,
   ⟨.IDENTIFIER, "y"⟩, ⟨.EQUALS, "="⟩, ⟨.NUMBER, "2"⟩, ⟨.OR, "OR"⟩,
   ⟨.IDENTIFIER, "z"⟩, ⟨.EQUALS, "="⟩, ⟨.NUMBER, "3"⟩]

/-- The AST of `c5Toks`: OR at the root, the AND chain on its left. -/
def c5Ast : Expr :=
  .logical
    (.logical (.binary (.ident (identOf "x")) "=" (.literal "1" (.vint 1) .int))
      "AND"
      (.binary (.ident (identOf "y")) "=" (.literal "2" (.vint 2) .int)))
    "OR"
    (.binary (.ident (identOf "z")) "=" (.literal "3" (.vint 3) .int))

/-- Witness for `where_precedence_or_and_comparison` on
`x = 1 AND y = 2 OR z = 3`. -/
theorem where_precedence_witness :
    orShape c5Ast = true ∧
      parseSQL c5ParenInput =
        .ok (.select [identOf "a"] (identOf "t") [] (some c5ParenWhere)) :=
  where_precedence_or_and_comparison 40 c5Toks [] c5Ast
    (by unfold noParens; decide) (by unfold wfLogicalLits; decide) (by rfl)


/-! ## Claim C2 — UPDATE constraint failure is atomic -/

/-- An UPDATE whose assignments set some NOT_NULL column to absent
while at least one row is selected (the claim's NOT_NULL failure
condition). -/
def HasNotNullAbsent (t : Table) (pred : Row → Bool)
    (ups : List (String × Option Value)) : Prop :=
  t.updatePositions pred ≠ [] ∧
  ∃ c ∈ t.schema.columns, c.notNull = true ∧ upsLookup ups c.name = some none

/-- An UPDATE with a unique-constraint conflict across the proposed
final state: some updated row's value at an assigned UNIQUE column
also occurs in another final row — covering both conflicts with
untouched rows and duplicates inside the update batch. -/
def HasUniqueConflict (t : Table) (pred : Row → Bool)
    (ups : List (String × Option Value)) : Prop :=
  ∃ c ∈ assignedUniqueCols t ups, ∃ i ∈ t.updatePositions pred, ∃ v,
    rowGet ((t.finalRows pred ups).getD i []) c.name = some v ∧
    ∃ j, j < (t.finalRows pred ups).length ∧ j ≠ i ∧
      rowGet ((t.finalRows pred ups).getD j []) c.name = some v

/-- `findSome?` succeeds when some member maps to `some`. -/
theorem findSome?_isSome_of_mem {α β : Type} {l : List α} {f : α → Option β}
    {a : α} (ha : a ∈ l) (hf : (f a).isSome = true) :
    (l.findSome? f).isSome = true := by
  induction l with
  | nil => cases ha
  | cons x xs ih =>
    rw [List.findSome?_cons]
    cases hx : f x with
    | some b => simp
    | none =>
      cases ha with
      | head => rw [hx] at hf; simp at hf
      | tail _ ha2 => exact ih ha2

/-- A successful `findSome?` exhibits a member mapping to the
result. -/
theorem exists_of_findSome?_eq_some {α β : Type} {l : List α} {f : α → Option β}
    {b : β} (h : l.findSome? f = some b) : ∃ a ∈ l, f a = some b := by
  induction l with
  | nil => simp [List.findSome?_nil] at h
  | cons x xs ih =>
    rw [List.findSome?_cons] at h
    cases hx : f x with
    | some c =>
      rw [hx] at h
      simp only [] at h
      exact ⟨x, by simp, by rw [hx, h]⟩
    | none =>
      rw [hx] at h
      obtain ⟨a, ha, hfa⟩ := ih h
      exact ⟨a, by simp [ha], hfa⟩

/-- Soundness of the NOT_NULL check of `Table.update`. -/
theorem hasNotNull_of_violation {t : Table} {pred : Row → Bool}
    {ups : List (String × Option Value)} {e : ConstraintErr}
    (h : updateNotNullViolation t pred ups = some e) :
    HasNotNullAbsent t pred ups ∧ ∃ c, e = .notNullViolation t.name c := by
  unfold updateNotNullViolation at h
  split at h
  · simp at h
  · rename_i hne
    split at h
    · rename_i c hf
      injection h with h2
      subst h2
      have hc := List.mem_of_find?_eq_some hf
      have hcp := List.find?_some hf
      simp at hcp
      refine ⟨⟨?_, c, hc, hcp.1, hcp.2⟩, c.name, rfl⟩
      intro hempty
      exact hne (by simp [hempty])
    · simp at h

/-- Completeness of the NOT_NULL check of `Table.update`. -/
theorem violation_of_hasNotNull {t : Table} {pred : Row → Bool}
    {ups : List (String × Option Value)} (h : HasNotNullAbsent t pred ups) :
    (updateNotNullViolation t pred ups).isSome = true := by
  obtain ⟨h1, c, hc, hn, hl⟩ := h
  unfold updateNotNullViolation
  rw [if_neg (by simp [h1])]
  have hfind : ((t.schema.columns.find?
      (fun c => c.notNull && decide (upsLookup ups c.name = some none)))).isSome = true :=
    List.find?_isSome.mpr ⟨c, hc, by simp [hn, hl]⟩
  obtain ⟨c0, hc0⟩ := Option.isSome_iff_exists.mp hfind
  rw [hc0]
  simp

/-- Completeness of the unique-conflict check of `Table.update`. -/
theorem conflict_of_hasUnique {t : Table} {pred : Row → Bool}
    {ups : List (String × Option Value)} (h : HasUniqueConflict t pred ups) :
    (findUpdateConflict t pred ups).isSome = true := by
  obtain ⟨c, hc, i, hi, v, hv, j, hj1, hj2, hj3⟩ := h
  unfold findUpdateConflict
  apply findSome?_isSome_of_mem hc
  apply findSome?_isSome_of_mem hi
  simp only [hv]
  rw [if_pos ?_]
  · simp
  · refine List.any_eq_true.mpr ⟨j, List.mem_range.mpr hj1, ?_⟩
    simp only [Bool.and_eq_true, decide_eq_true_eq]
    exact ⟨hj2, hj3⟩

/-- Soundness of the unique-conflict check of `Table.update`. -/
theorem hasUnique_of_conflict {t : Table} {pred : Row → Bool}
    {ups : List (String × Option Value)} {cv : String × Value}
    (h : findUpdateConflict t pred ups = some cv) :
    HasUniqueConflict t pred ups := by
  unfold findUpdateConflict at h
  simp only [] at h
  obtain ⟨c, hc, hinner⟩ := exists_of_findSome?_eq_some h
  obtain ⟨i, hi, hfi⟩ := exists_of_findSome?_eq_some hinner
  refine ⟨c, hc, i, hi, ?_⟩
  cases hv : rowGet ((t.finalRows pred ups).getD i []) c.name with
  | none => rw [hv] at hfi; simp at hfi
  | some v =>
    rw [hv] at hfi
    simp only [] at hfi
    split at hfi
    · rename_i hany
      obtain ⟨j, hjm, hjp⟩ := List.any_eq_true.mp hany
      simp only [Bool.and_eq_true, decide_eq_true_eq] at hjp
      exact ⟨v, rfl, j, List.mem_range.mp hjm, hjp.1, hjp.2⟩
    · simp at hfi

/-- C2: when an UPDATE has any constraint failure on its proposed
post-update rows — a unique conflict against the final state
(including duplicates within the batch) or an assignment setting a
NOT_NULL column to absent — `Table.update` returns a violation error
of the corresponding kind and the table, rows and unique indexes
included, is exactly its pre-statement value (no partial
application). -/
theorem update_violation_no_partial_application (t : Table) (pred : Row → Bool)
    (ups : List (String × Option Value))
    (h : HasNotNullAbsent t pred ups ∨ HasUniqueConflict t pred ups) :
    ∃ e, Table.update t pred ups = (.error e, t) ∧
      (∀ tb c, e = .notNullViolation tb c → HasNotNullAbsent t pred ups) ∧
      (∀ tb c v, e = .uniqueViolation tb c v → HasUniqueConflict t pred ups) := by
  have hsome : (firstUpdateViolation t pred ups).isSome = true := by
    unfold firstUpdateViolation
    cases hn : updateNotNullViolation t pred ups with
    | some e0 => simp
    | none =>
      cases h with
      | inl hno =>
        have h1 := violation_of_hasNotNull hno
        rw [hn] at h1
        simp at h1
      | inr hu =>
        have h1 := conflict_of_hasUnique hu
        obtain ⟨cv, hcv⟩ := Option.isSome_iff_exists.mp h1
        rw [hcv]
        simp
  obtain ⟨e, he⟩ := Option.isSome_iff_exists.mp hsome
  refine ⟨e, ?_, ?_, ?_⟩
  · unfold Table.update
    rw [he]
  · intro tb c hform
    unfold firstUpdateViolation at he
    cases hn : updateNotNullViolation t pred ups with
    | some e0 =>
      rw [hn] at he
      injection he with he2
      exact (hasNotNull_of_violation (by rw [hn, he2])).1
    | none =>
      rw [hn] at he
      cases hcf : findUpdateConflict t pred ups with
      | none => rw [hcf] at he; simp at he
      | some cv =>
        rw [hcf] at he
        simp at he
        rw [← he] at hform
        cases hform
  · intro tb c v hform
    unfold firstUpdateViolation at he
    cases hn : updateNotNullViolation t pred ups with
    | some e0 =>
      rw [hn] at he
      injection he with he2
      obtain ⟨_, c0, hc0⟩ := hasNotNull_of_violation hn
      rw [he2, hform] at hc0
      simp at hc0
    | none =>
      rw [hn] at he
      cases hcf : findUpdateConflict t pred ups with
      | none => rw [hcf] at he; simp at he
      | some cv =>
        exact hasUnique_of_conflict hcf


/-- The predicate of `UPDATE users SET id = 2 WHERE id = 1`. -/
def c2Pred : Row → Bool := fun r => decide (rowGet r "id" = some (.vint 1))

/-- The assignment list of `UPDATE users SET id = 2 WHERE id = 1`. -/
def c2Ups : List (String × Option Value) := [("id", some (.vint 2))]

/-- The `id` column of the `users` fixture. -/
def c2IdCol : Column :=
  { name := "id", type := .int, primaryKey := true, unique := true,
    notNull := true, autoIncrement := true }

/-- Witness for `update_violation_no_partial_application`:
`UPDATE users SET id = 2 WHERE id = 1` collides with the existing
row whose id is 2. -/
theorem update_violation_no_partial_application_witness :
    ∃ e, Table.update usersTable c2Pred c2Ups = (.error e, usersTable) ∧
      (∀ tb c, e = .notNullViolation tb c →
        HasNotNullAbsent usersTable c2Pred c2Ups) ∧
      (∀ tb c v, e = .uniqueViolation tb c v →
        HasUniqueConflict usersTable c2Pred c2Ups) :=
  update_violation_no_partial_application usersTable c2Pred c2Ups
    (Or.inr ⟨c2IdCol, by decide, 0, by decide, .vint 2, by decide, 1,
      by decide, by decide, by decide⟩)


end JoyDb
